import Mathlib

/-!
Verification of the pool-table energy-accounting widget
(`src/js/pool-invariance.js`) together with the canvas sizing helper of
`src/js/widgets-core.js`.

Modelling conventions.  All JavaScript numbers appearing in the physics and
ledger code are modelled as exact rationals (`ℚ`).  Comparisons performed in
the source through `Math.hypot` are translated to their squared equivalents
(`Math.hypot(vx,vy) < c` becomes `vx*vx + vy*vy < c*c`, which is equivalent
over nonnegative reals).  The two genuine square roots of the source
(`Math.sqrt` inside `pullToSpeed` and the normalisation by
`Math.hypot(aimVec)` inside `beginMotionFromAim`) are encoded relationally:
a predicate states that a value is the nonnegative square root of the
relevant quantity, and uniqueness of that value is proved where the claims
need determinism.
-/

namespace Pool

/-- One entry of `state.samples`: the `{ t, Etrans, Wfric, Winel }` record
pushed by `sampleEnergy`. -/
structure Sample where
  t : ℚ
  Etrans : ℚ
  Wfric : ℚ
  Winel : ℚ
deriving DecidableEq

/-- The discrete widget modes: `'idle' | 'dragBall' | 'aim' | 'hitting' |
'moving'`. -/
inductive Mode where
  | idle
  | dragBall
  | aim
  | hitting
  | moving
deriving DecidableEq

/-- The fields of the widget `state` object that the physics, ledger and
pointer code read or write. -/
structure PoolState where
  x : ℚ
  y : ℚ
  r : ℚ
  vx : ℚ
  vy : ℚ
  mode : Mode
  hitFrame : ℕ
  aimX : ℚ
  aimY : ℚ
  frictionFactor : ℚ
  restitution : ℚ
  E0 : ℚ
  Etrans : ℚ
  Wfric : ℚ
  Winel : ℚ
  t : ℚ
  samples : List Sample
deriving DecidableEq

/-- `cfg.ballRadius`. -/
def ballRadius : ℚ := 10

/-- `cfg.maxPull` (px). -/
def maxPull : ℚ := 220

/-- `cfg.maxSpeedPxPerFrame` (px/frame). -/
def maxSpeedPxPerFrame : ℚ := 8

/-- `cfg.samplesMax`. -/
def samplesMax : ℕ := 2400

/-- `Widgets.clamp` from `widgets-core.js`: `Math.max(lo, Math.min(hi, v))`. -/
def clamp (v lo hi : ℚ) : ℚ := max lo (min hi v)

/-- `ballHitTest`: the pointer point lies inside the ball,
`dx*dx + dy*dy <= r*r`. -/
def ballHitTest (px py : ℚ) (s : PoolState) : Prop :=
  (px - s.x) * (px - s.x) + (py - s.y) * (py - s.y) ≤ s.r * s.r

instance (px py : ℚ) (s : PoolState) : Decidable (ballHitTest px py s) := by
  unfold ballHitTest
  infer_instance

/-- The `onStart` callback of the unified drag handler: grabbing the ball
wins from any mode (zero the velocity, enter `dragBall`, reset `hitFrame`);
otherwise, unless a strike animation is in progress, enter `aim` with the
pointer→ball vector. -/
def onStart (px py : ℚ) (s : PoolState) : PoolState :=
  if ballHitTest px py s then
    { s with vx := 0, vy := 0, mode := Mode.dragBall, hitFrame := 0 }
  else if s.mode ≠ Mode.hitting then
    { s with mode := Mode.aim, aimX := s.x - px, aimY := s.y - py }
  else s

/-- The clamped square-root argument of `pullToSpeed`:
`clamp(lenPx / cfg.maxPull, 0, 1)`. -/
def pullToSpeedArg (lenPx : ℚ) : ℚ := clamp (lenPx / maxPull) 0 1

/-- Relational encoding of
`pullToSpeed = (lenPx) => cfg.maxSpeedPxPerFrame * Math.sqrt(clamp(lenPx/cfg.maxPull, 0, 1))`:
`spd` is the value returned on `lenPx` iff it is nonnegative and its square
is `maxSpeed² · clamp(lenPx/maxPull, 0, 1)`. -/
def IsPullToSpeed (lenPx spd : ℚ) : Prop :=
  0 ≤ spd ∧ spd * spd = maxSpeedPxPerFrame * maxSpeedPxPerFrame * pullToSpeedArg lenPx

/-- Relational encoding of the launch velocity computed by
`beginMotionFromAim` from a nonzero aim vector: `L = Math.hypot(ax, ay)` is
positive, `spd = pullToSpeed(L)`, and `(vx, vy) = spd · (ax/L, ay/L)`
(stated multiplied through by `L`). -/
def IsLaunchVelocity (ax ay vx vy : ℚ) : Prop :=
  ∃ L spd, 0 < L ∧ L * L = ax * ax + ay * ay ∧ IsPullToSpeed L spd ∧
    vx * L = spd * ax ∧ vy * L = spd * ay

/-- `sampleEnergy`: push the current ledger values, then drop the oldest
entry when the buffer length exceeds the cap (`cfg.samplesMax`). -/
def sampleEnergy (cap : ℕ) (s : PoolState) : PoolState :=
  let samples := s.samples ++ [⟨s.t, s.Etrans, s.Wfric, s.Winel⟩]
  { s with samples := if samples.length > cap then samples.tail else samples }

/-- The tail of `beginMotionFromAim` (after the launch velocity has been
computed): install the velocity, clear the aim vector, initialise the
energy ledger with `E0 = 0.5*(vx*vx + vy*vy)` (mass 1), reset the clock and
sample history, and record the first sample. -/
def beginMotionFromVelocity (cap : ℕ) (vx vy : ℚ) (s : PoolState) : PoolState :=
  sampleEnergy cap
    { s with vx := vx, vy := vy, aimX := 0, aimY := 0,
             E0 := (vx * vx + vy * vy) / 2,
             Etrans := (vx * vx + vy * vy) / 2,
             Wfric := 0, Winel := 0, t := 0, samples := [] }

/-- The `hitting → moving` transition of `loop`: set the mode to `moving`
and run `beginMotionFromAim`, here supplied with the computed launch
velocity. -/
def launchShot (cap : ℕ) (vx vy : ℚ) (s : PoolState) : PoolState :=
  beginMotionFromVelocity cap vx vy { s with mode := Mode.moving }

/-- `collideWallsAndTrackLoss`: clamp against each of the four cushions,
point the crossed velocity component away from the wall scaled by the
restitution `e`, and, when any cushion was hit and `e < 1`, add the
positive part of the kinetic-energy drop to `Winel`. -/
def collideWallsAndTrackLoss (width height : ℚ) (s : PoolState) : PoolState :=
  let e := s.restitution
  let v2b := s.vx * s.vx + s.vy * s.vy
  let s1 :=
    if s.x - s.r < 0 then { s with x := s.r, vx := |s.vx| * e }
    else if s.x + s.r > width then { s with x := width - s.r, vx := -|s.vx| * e }
    else s
  let s2 :=
    if s1.y - s1.r < 0 then { s1 with y := s1.r, vy := |s1.vy| * e }
    else if s1.y + s1.r > height then { s1 with y := height - s1.r, vy := -|s1.vy| * e }
    else s1
  let bounced :=
    s.x - s.r < 0 ∨ s.x + s.r > width ∨ s.y - s.r < 0 ∨ s.y + s.r > height
  if bounced ∧ e < 1 then
    let v2a := s2.vx * s2.vx + s2.vy * s2.vy
    let dE := (v2b - v2a) / 2
    if dE > 0 then { s2 with Winel := s2.Winel + dE } else s2
  else s2

/-- `applyFrictionAndTrackLoss`: a no-op when `frictionFactor >= 1`;
otherwise scale both velocity components by the factor and add the positive
part of the kinetic-energy drop to `Wfric`. -/
def applyFrictionAndTrackLoss (s : PoolState) : PoolState :=
  if s.frictionFactor ≥ 1 then s
  else
    let v2b := s.vx * s.vx + s.vy * s.vy
    let vx := s.vx * s.frictionFactor
    let vy := s.vy * s.frictionFactor
    let v2a := vx * vx + vy * vy
    let dE := (v2b - v2a) / 2
    if dE > 0 then { s with vx := vx, vy := vy, Wfric := s.Wfric + dE }
    else { s with vx := vx, vy := vy }

/-- `energyCorrection`: recompute `Etrans` from the velocity, and if the
ledger sum has drifted from `E0` by more than `1e-6`, fold the residual
into `Wfric` (clamped at zero). -/
def energyCorrection (s : PoolState) : PoolState :=
  let Etrans := (s.vx * s.vx + s.vy * s.vy) / 2
  let sum := Etrans + s.Wfric + s.Winel
  let corr := s.E0 - sum
  if |corr| > 1 / 1000000 then
    { s with Etrans := Etrans, Wfric := max 0 (s.Wfric + corr) }
  else
    { s with Etrans := Etrans }

/-- One animation frame of the `state.mode === 'moving'` branch of `loop`:
advance the clock, integrate the position, resolve wall collisions, apply
friction, stop when `Math.hypot(vx, vy) < 0.01` (translated to the squared
comparison `vx*vx + vy*vy < 1/10000`), run the energy correction and record
a sample. -/
def movingFrame (width height : ℚ) (cap : ℕ) (dt : ℚ) (s : PoolState) : PoolState :=
  let sInt := { s with t := s.t + dt, x := s.x + s.vx, y := s.y + s.vy }
  let sCol := collideWallsAndTrackLoss width height sInt
  let sFr := applyFrictionAndTrackLoss sCol
  let sStop :=
    if sFr.vx * sFr.vx + sFr.vy * sFr.vy < 1 / 10000 then
      { sFr with vx := 0, vy := 0, mode := Mode.idle }
    else sFr
  sampleEnergy cap (energyCorrection sStop)

/-- One `loop` iteration restricted to its physics effect: only the
`moving` mode advances the simulation (the `hitting` countdown and the
idle/drag/aim modes perform no physics). -/
def loopFrame (width height : ℚ) (cap : ℕ) (dt : ℚ) (s : PoolState) : PoolState :=
  if s.mode = Mode.moving then movingFrame width height cap dt s else s

/-- A run of consecutive animation frames with the given wall-clock deltas. -/
def runTrace (width height : ℚ) (cap : ℕ) (s : PoolState) (dts : List ℚ) : PoolState :=
  dts.foldl (fun acc dt => loopFrame width height cap dt acc) s

/-- JavaScript `Math.round`: round half toward positive infinity. -/
def jsRound (q : ℚ) : ℤ := ⌊q + 1 / 2⌋

/-- The CSS-pixel width computed by one `layout()` pass of
`autosizeCanvas`: `clamp(host?.clientWidth || max, min, max)`; a missing
container (`none`) or a zero `clientWidth` is falsy in JavaScript and falls
back to the max width. -/
def autosizeWidth (hostW : Option ℚ) (lo hi : ℚ) : ℚ :=
  let w :=
    match hostW with
    | none => hi
    | some cw => if cw = 0 then hi else cw
  clamp w lo hi

/-- The height computed by `layout()`: `Math.round(w / aspect)`. -/
def autosizeHeight (hostW : Option ℚ) (lo hi aspect : ℚ) : ℤ :=
  jsRound (autosizeWidth hostW lo hi / aspect)

/-- The squared speed `vx*vx + vy*vy` of a state. -/
def speedSq (s : PoolState) : ℚ := s.vx * s.vx + s.vy * s.vy

/-- A recorded sample satisfies the conservation invariant against `E0`
within the correction tolerance. -/
def SampleOK (E0 : ℚ) (smp : Sample) : Prop :=
  |smp.Etrans + smp.Wfric + smp.Winel - E0| ≤ 1 / 1000000

/-- The internal ledger bookkeeping is exact: the true kinetic energy plus
the recorded losses equals `E0`, and both losses are nonnegative. -/
def LedgerPre (s : PoolState) : Prop :=
  speedSq s / 2 + s.Wfric + s.Winel = s.E0 ∧ 0 ≤ s.Wfric ∧ 0 ≤ s.Winel

/-- The ledger is exact and the cached `Etrans` agrees with the velocity. -/
def EnergyBalanced (s : PoolState) : Prop :=
  LedgerPre s ∧ s.Etrans = speedSq s / 2

/-- The environment parameters lie in the ranges maintained by the widget
(UI clamps plus physical sanity): restitution in `[0, 1]`, nonnegative
friction factor. -/
def ParamsOK (s : PoolState) : Prop :=
  0 ≤ s.restitution ∧ s.restitution ≤ 1 ∧ 0 ≤ s.frictionFactor

/-- The inductive invariant carried along a shot: every recorded sample
satisfies the conservation bound, and while the body is still moving the
ledger is exactly balanced. -/
def LedgerInv (s : PoolState) : Prop :=
  (∀ smp ∈ s.samples, SampleOK s.E0 smp) ∧
    (s.mode = Mode.moving → EnergyBalanced s)

/-- The invariant carried along the frames of one shot whose launch energy
is `E0`: the environment parameters stay in range, the stored `E0` is the
launch energy, every recorded sample satisfies the conservation bound, and
while the mode is still `moving` the internal ledger is exactly balanced. -/
def ShotInv (E0 : ℚ) (s : PoolState) : Prop :=
  s.E0 = E0 ∧ ParamsOK s ∧ (∀ smp ∈ s.samples, SampleOK E0 smp) ∧
    (s.mode = Mode.moving → LedgerPre s)

/-- The invariant of a perfectly elastic, frictionless shot
(`frictionFactor == 1`, `restitution == 1`): no losses are ever recorded
and the kinetic energy stays pinned at `E0`. -/
def ElasticInv (E0 : ℚ) (s : PoolState) : Prop :=
  s.frictionFactor = 1 ∧ s.restitution = 1 ∧ s.mode = Mode.moving ∧
    s.E0 = E0 ∧ s.Wfric = 0 ∧ s.Winel = 0 ∧ s.Etrans = E0 ∧
    speedSq s / 2 = E0 ∧ 1 / 10000 ≤ speedSq s ∧
    (∀ smp ∈ s.samples, smp.Wfric = 0 ∧ smp.Winel = 0 ∧ smp.Etrans = E0)

/-- A concrete idle widget state (ball centred on a 300×200 table with the
default `cfg` radius), used to evaluate the theorems on explicit inputs. -/
def exBase : PoolState :=
  { x := 150, y := 100, r := 10, vx := 0, vy := 0, mode := Mode.idle, hitFrame := 0,
    aimX := 0, aimY := 0, frictionFactor := 1 / 2, restitution := 9 / 10,
    E0 := 0, Etrans := 0, Wfric := 0, Winel := 0, t := 0, samples := [] }

/-- A moving state with an extreme single-frame velocity, used to evaluate
the containment theorem on an explicit input. -/
def exFast : PoolState :=
  { exBase with mode := Mode.moving, vx := 100000, vy := -50000 }

/-- A moving state about to cross the right cushion with a nonzero `vy` and
a lossy restitution, used to evaluate the wall-collision contract on an
explicit input. -/
def exC3 : PoolState :=
  { exBase with mode := Mode.moving, x := 295, vx := 5, vy := 3, restitution := 1 / 2 }

/-- A moving state with nonzero velocity whose centre coincides with the
pointer, used to evaluate the grab-anytime behaviour on an explicit
input. -/
def exGrab : PoolState :=
  { exBase with mode := Mode.moving, vx := 3, vy := 4, E0 := 25 / 2, Etrans := 25 / 2 }

/-- An idle state with frictionless, perfectly elastic parameters, used to
evaluate the monotone-dissipation theorem on an explicit input. -/
def exElastic : PoolState :=
  { exBase with frictionFactor := 1, restitution := 1 }

/-- A frictionless (`frictionFactor = 1`), lossy-restitution state one
frame away from bouncing off the right cushion and dropping below the rest
threshold, with a consistent ledger; used to evaluate the rest-frame
residual fold on an explicit input. -/
def exRest : PoolState :=
  { exBase with
    mode := Mode.moving, x := 290, vx := 3 / 250, vy := 0,
    frictionFactor := 1, restitution := 4 / 5,
    E0 := 9 / 125000, Etrans := 9 / 125000, Wfric := 0, Winel := 0 }

/-- The state `exRest` after one position-integration step (the state on
which the wall collision of the rest frame is resolved). -/
def exRestInt : PoolState :=
  { exRest with t := exRest.t + 1 / 60, x := exRest.x + exRest.vx, y := exRest.y + exRest.vy }

/-! ### Characterisation of `collideWallsAndTrackLoss` -/

theorem collide_x (w h : ℚ) (s : PoolState) :
    (collideWallsAndTrackLoss w h s).x =
      (if s.x - s.r < 0 then s.r
       else if s.x + s.r > w then w - s.r
       else s.x) := by
  simp only [collideWallsAndTrackLoss, apply_ite PoolState.x, apply_ite PoolState.y,
    apply_ite PoolState.r, ite_self]

theorem collide_y (w h : ℚ) (s : PoolState) :
    (collideWallsAndTrackLoss w h s).y =
      (if s.y - s.r < 0 then s.r
       else if s.y + s.r > h then h - s.r
       else s.y) := by
  simp only [collideWallsAndTrackLoss, apply_ite PoolState.y,
    apply_ite PoolState.r, ite_self]

theorem collide_vx (w h : ℚ) (s : PoolState) :
    (collideWallsAndTrackLoss w h s).vx =
      (if s.x - s.r < 0 then |s.vx| * s.restitution
       else if s.x + s.r > w then -|s.vx| * s.restitution
       else s.vx) := by
  simp only [collideWallsAndTrackLoss, apply_ite PoolState.vx, apply_ite PoolState.y,
    apply_ite PoolState.r, ite_self]

theorem collide_vy (w h : ℚ) (s : PoolState) :
    (collideWallsAndTrackLoss w h s).vy =
      (if s.y - s.r < 0 then |s.vy| * s.restitution
       else if s.y + s.r > h then -|s.vy| * s.restitution
       else s.vy) := by
  simp only [collideWallsAndTrackLoss, apply_ite PoolState.vy, apply_ite PoolState.y,
    apply_ite PoolState.r, ite_self]

theorem collide_Winel (w h : ℚ) (s : PoolState) :
    (collideWallsAndTrackLoss w h s).Winel =
      (if (s.x - s.r < 0 ∨ s.x + s.r > w ∨ s.y - s.r < 0 ∨ s.y + s.r > h) ∧
            s.restitution < 1 then
        if (s.vx * s.vx + s.vy * s.vy -
              ((collideWallsAndTrackLoss w h s).vx * (collideWallsAndTrackLoss w h s).vx +
               (collideWallsAndTrackLoss w h s).vy * (collideWallsAndTrackLoss w h s).vy)) / 2 > 0 then
          s.Winel +
            (s.vx * s.vx + s.vy * s.vy -
              ((collideWallsAndTrackLoss w h s).vx * (collideWallsAndTrackLoss w h s).vx +
               (collideWallsAndTrackLoss w h s).vy * (collideWallsAndTrackLoss w h s).vy)) / 2
        else s.Winel
      else s.Winel) := by
  simp only [collideWallsAndTrackLoss, apply_ite PoolState.vx, apply_ite PoolState.vy,
    apply_ite PoolState.Winel, apply_ite PoolState.y, apply_ite PoolState.r, ite_self]

theorem collide_Wfric (w h : ℚ) (s : PoolState) :
    (collideWallsAndTrackLoss w h s).Wfric = s.Wfric := by
  simp only [collideWallsAndTrackLoss, apply_ite PoolState.Wfric, apply_ite PoolState.y,
    apply_ite PoolState.r, ite_self]

theorem collide_E0 (w h : ℚ) (s : PoolState) :
    (collideWallsAndTrackLoss w h s).E0 = s.E0 := by
  simp only [collideWallsAndTrackLoss, apply_ite PoolState.E0, apply_ite PoolState.y,
    apply_ite PoolState.r, ite_self]

theorem collide_Etrans (w h : ℚ) (s : PoolState) :
    (collideWallsAndTrackLoss w h s).Etrans = s.Etrans := by
  simp only [collideWallsAndTrackLoss, apply_ite PoolState.Etrans, apply_ite PoolState.y,
    apply_ite PoolState.r, ite_self]

theorem collide_t (w h : ℚ) (s : PoolState) :
    (collideWallsAndTrackLoss w h s).t = s.t := by
  simp only [collideWallsAndTrackLoss, apply_ite PoolState.t, apply_ite PoolState.y,
    apply_ite PoolState.r, ite_self]

theorem collide_samples (w h : ℚ) (s : PoolState) :
    (collideWallsAndTrackLoss w h s).samples = s.samples := by
  simp only [collideWallsAndTrackLoss, apply_ite PoolState.samples, apply_ite PoolState.y,
    apply_ite PoolState.r, ite_self]

theorem collide_mode (w h : ℚ) (s : PoolState) :
    (collideWallsAndTrackLoss w h s).mode = s.mode := by
  simp only [collideWallsAndTrackLoss, apply_ite PoolState.mode, apply_ite PoolState.y,
    apply_ite PoolState.r, ite_self]

theorem collide_r (w h : ℚ) (s : PoolState) :
    (collideWallsAndTrackLoss w h s).r = s.r := by
  simp only [collideWallsAndTrackLoss, apply_ite PoolState.r, apply_ite PoolState.y,
    apply_ite PoolState.r, ite_self]

theorem collide_frictionFactor (w h : ℚ) (s : PoolState) :
    (collideWallsAndTrackLoss w h s).frictionFactor = s.frictionFactor := by
  simp only [collideWallsAndTrackLoss, apply_ite PoolState.frictionFactor, apply_ite PoolState.y,
    apply_ite PoolState.r, ite_self]

theorem collide_restitution (w h : ℚ) (s : PoolState) :
    (collideWallsAndTrackLoss w h s).restitution = s.restitution := by
  simp only [collideWallsAndTrackLoss, apply_ite PoolState.restitution, apply_ite PoolState.y,
    apply_ite PoolState.r, ite_self]

/-! ### Characterisation of `applyFrictionAndTrackLoss` -/

theorem friction_of_ge_one (s : PoolState) (hf : 1 ≤ s.frictionFactor) :
    applyFrictionAndTrackLoss s = s := by
  simp only [applyFrictionAndTrackLoss, ge_iff_le, if_pos hf]

theorem friction_vx (s : PoolState) :
    (applyFrictionAndTrackLoss s).vx =
      (if 1 ≤ s.frictionFactor then s.vx else s.vx * s.frictionFactor) := by
  simp only [applyFrictionAndTrackLoss, ge_iff_le, apply_ite PoolState.vx, ite_self]

theorem friction_vy (s : PoolState) :
    (applyFrictionAndTrackLoss s).vy =
      (if 1 ≤ s.frictionFactor then s.vy else s.vy * s.frictionFactor) := by
  simp only [applyFrictionAndTrackLoss, ge_iff_le, apply_ite PoolState.vy, ite_self]

theorem friction_Wfric (s : PoolState) :
    (applyFrictionAndTrackLoss s).Wfric =
      (if 1 ≤ s.frictionFactor then s.Wfric
       else
        if (s.vx * s.vx + s.vy * s.vy -
              (s.vx * s.frictionFactor * (s.vx * s.frictionFactor) +
               s.vy * s.frictionFactor * (s.vy * s.frictionFactor))) / 2 > 0 then
          s.Wfric +
            (s.vx * s.vx + s.vy * s.vy -
              (s.vx * s.frictionFactor * (s.vx * s.frictionFactor) +
               s.vy * s.frictionFactor * (s.vy * s.frictionFactor))) / 2
        else s.Wfric) := by
  simp only [applyFrictionAndTrackLoss, ge_iff_le, apply_ite PoolState.Wfric, ite_self]

theorem friction_Winel (s : PoolState) :
    (applyFrictionAndTrackLoss s).Winel = s.Winel := by
  simp only [applyFrictionAndTrackLoss, ge_iff_le, apply_ite PoolState.Winel, ite_self]

theorem friction_E0 (s : PoolState) :
    (applyFrictionAndTrackLoss s).E0 = s.E0 := by
  simp only [applyFrictionAndTrackLoss, ge_iff_le, apply_ite PoolState.E0, ite_self]

theorem friction_Etrans (s : PoolState) :
    (applyFrictionAndTrackLoss s).Etrans = s.Etrans := by
  simp only [applyFrictionAndTrackLoss, ge_iff_le, apply_ite PoolState.Etrans, ite_self]

theorem friction_t (s : PoolState) :
    (applyFrictionAndTrackLoss s).t = s.t := by
  simp only [applyFrictionAndTrackLoss, ge_iff_le, apply_ite PoolState.t, ite_self]

theorem friction_samples (s : PoolState) :
    (applyFrictionAndTrackLoss s).samples = s.samples := by
  simp only [applyFrictionAndTrackLoss, ge_iff_le, apply_ite PoolState.samples, ite_self]

theorem friction_mode (s : PoolState) :
    (applyFrictionAndTrackLoss s).mode = s.mode := by
  simp only [applyFrictionAndTrackLoss, ge_iff_le, apply_ite PoolState.mode, ite_self]

theorem friction_x (s : PoolState) :
    (applyFrictionAndTrackLoss s).x = s.x := by
  simp only [applyFrictionAndTrackLoss, ge_iff_le, apply_ite PoolState.x, ite_self]

theorem friction_y (s : PoolState) :
    (applyFrictionAndTrackLoss s).y = s.y := by
  simp only [applyFrictionAndTrackLoss, ge_iff_le, apply_ite PoolState.y, ite_self]

theorem friction_r (s : PoolState) :
    (applyFrictionAndTrackLoss s).r = s.r := by
  simp only [applyFrictionAndTrackLoss, ge_iff_le, apply_ite PoolState.r, ite_self]

theorem friction_frictionFactor (s : PoolState) :
    (applyFrictionAndTrackLoss s).frictionFactor = s.frictionFactor := by
  simp only [applyFrictionAndTrackLoss, ge_iff_le, apply_ite PoolState.frictionFactor, ite_self]

theorem friction_restitution (s : PoolState) :
    (applyFrictionAndTrackLoss s).restitution = s.restitution := by
  simp only [applyFrictionAndTrackLoss, ge_iff_le, apply_ite PoolState.restitution, ite_self]

/-! ### Characterisation of `energyCorrection` -/

theorem correction_Etrans (s : PoolState) :
    (energyCorrection s).Etrans = (s.vx * s.vx + s.vy * s.vy) / 2 := by
  simp only [energyCorrection, apply_ite PoolState.Etrans, ite_self]

theorem correction_Wfric (s : PoolState) :
    (energyCorrection s).Wfric =
      (if |s.E0 - ((s.vx * s.vx + s.vy * s.vy) / 2 + s.Wfric + s.Winel)| > 1 / 1000000 then
        max 0 (s.Wfric + (s.E0 - ((s.vx * s.vx + s.vy * s.vy) / 2 + s.Wfric + s.Winel)))
       else s.Wfric) := by
  simp only [energyCorrection, apply_ite PoolState.Wfric, ite_self]

theorem correction_Winel (s : PoolState) :
    (energyCorrection s).Winel = s.Winel := by
  simp only [energyCorrection, apply_ite PoolState.Winel, ite_self]

theorem correction_E0 (s : PoolState) :
    (energyCorrection s).E0 = s.E0 := by
  simp only [energyCorrection, apply_ite PoolState.E0, ite_self]

theorem correction_vx (s : PoolState) :
    (energyCorrection s).vx = s.vx := by
  simp only [energyCorrection, apply_ite PoolState.vx, ite_self]

theorem correction_vy (s : PoolState) :
    (energyCorrection s).vy = s.vy := by
  simp only [energyCorrection, apply_ite PoolState.vy, ite_self]

theorem correction_t (s : PoolState) :
    (energyCorrection s).t = s.t := by
  simp only [energyCorrection, apply_ite PoolState.t, ite_self]

theorem correction_samples (s : PoolState) :
    (energyCorrection s).samples = s.samples := by
  simp only [energyCorrection, apply_ite PoolState.samples, ite_self]

theorem correction_mode (s : PoolState) :
    (energyCorrection s).mode = s.mode := by
  simp only [energyCorrection, apply_ite PoolState.mode, ite_self]

theorem correction_x (s : PoolState) :
    (energyCorrection s).x = s.x := by
  simp only [energyCorrection, apply_ite PoolState.x, ite_self]

theorem correction_y (s : PoolState) :
    (energyCorrection s).y = s.y := by
  simp only [energyCorrection, apply_ite PoolState.y, ite_self]

theorem correction_r (s : PoolState) :
    (energyCorrection s).r = s.r := by
  simp only [energyCorrection, apply_ite PoolState.r, ite_self]

theorem correction_frictionFactor (s : PoolState) :
    (energyCorrection s).frictionFactor = s.frictionFactor := by
  simp only [energyCorrection, apply_ite PoolState.frictionFactor, ite_self]

theorem correction_restitution (s : PoolState) :
    (energyCorrection s).restitution = s.restitution := by
  simp only [energyCorrection, apply_ite PoolState.restitution, ite_self]

/-! ### Characterisation of `sampleEnergy` -/

theorem sample_samples (cap : ℕ) (s : PoolState) :
    (sampleEnergy cap s).samples =
      (if (s.samples ++ [Sample.mk s.t s.Etrans s.Wfric s.Winel]).length > cap then
        (s.samples ++ [Sample.mk s.t s.Etrans s.Wfric s.Winel]).tail
       else s.samples ++ [Sample.mk s.t s.Etrans s.Wfric s.Winel]) := rfl

theorem sample_vx (cap : ℕ) (s : PoolState) : (sampleEnergy cap s).vx = s.vx := rfl

theorem sample_vy (cap : ℕ) (s : PoolState) : (sampleEnergy cap s).vy = s.vy := rfl

theorem sample_Etrans (cap : ℕ) (s : PoolState) : (sampleEnergy cap s).Etrans = s.Etrans := rfl

theorem sample_Wfric (cap : ℕ) (s : PoolState) : (sampleEnergy cap s).Wfric = s.Wfric := rfl

theorem sample_Winel (cap : ℕ) (s : PoolState) : (sampleEnergy cap s).Winel = s.Winel := rfl

theorem sample_E0 (cap : ℕ) (s : PoolState) : (sampleEnergy cap s).E0 = s.E0 := rfl

theorem sample_t (cap : ℕ) (s : PoolState) : (sampleEnergy cap s).t = s.t := rfl

theorem sample_mode (cap : ℕ) (s : PoolState) : (sampleEnergy cap s).mode = s.mode := rfl

theorem sample_x (cap : ℕ) (s : PoolState) : (sampleEnergy cap s).x = s.x := rfl

theorem sample_y (cap : ℕ) (s : PoolState) : (sampleEnergy cap s).y = s.y := rfl

theorem sample_r (cap : ℕ) (s : PoolState) : (sampleEnergy cap s).r = s.r := rfl

theorem sample_frictionFactor (cap : ℕ) (s : PoolState) :
    (sampleEnergy cap s).frictionFactor = s.frictionFactor := rfl

theorem sample_restitution (cap : ℕ) (s : PoolState) :
    (sampleEnergy cap s).restitution = s.restitution := rfl

/-! ### Energy accounting of the collision step -/

theorem speedSq_nonneg (s : PoolState) : 0 ≤ speedSq s :=
  add_nonneg (mul_self_nonneg s.vx) (mul_self_nonneg s.vy)

theorem collide_vx_sq_le (w h : ℚ) (s : PoolState)
    (h0 : 0 ≤ s.restitution) (h1 : s.restitution ≤ 1) :
    (collideWallsAndTrackLoss w h s).vx * (collideWallsAndTrackLoss w h s).vx
      ≤ s.vx * s.vx := by
  have he2 : (0:ℚ) ≤ 1 - s.restitution * s.restitution := by nlinarith
  have ha : (0:ℚ) ≤ (1 - s.restitution * s.restitution) * (s.vx * s.vx) :=
    mul_nonneg he2 (mul_self_nonneg s.vx)
  rw [collide_vx]
  split_ifs <;> nlinarith [abs_mul_abs_self s.vx, mul_self_nonneg s.restitution]

theorem collide_vy_sq_le (w h : ℚ) (s : PoolState)
    (h0 : 0 ≤ s.restitution) (h1 : s.restitution ≤ 1) :
    (collideWallsAndTrackLoss w h s).vy * (collideWallsAndTrackLoss w h s).vy
      ≤ s.vy * s.vy := by
  have he2 : (0:ℚ) ≤ 1 - s.restitution * s.restitution := by nlinarith
  have ha : (0:ℚ) ≤ (1 - s.restitution * s.restitution) * (s.vy * s.vy) :=
    mul_nonneg he2 (mul_self_nonneg s.vy)
  rw [collide_vy]
  split_ifs <;> nlinarith [abs_mul_abs_self s.vy, mul_self_nonneg s.restitution]

theorem collide_vx_sq_ge (w h : ℚ) (s : PoolState)
    (h0 : 0 ≤ s.restitution) (h1 : s.restitution ≤ 1) :
    s.restitution * s.restitution * (s.vx * s.vx)
      ≤ (collideWallsAndTrackLoss w h s).vx * (collideWallsAndTrackLoss w h s).vx := by
  have he2 : (0:ℚ) ≤ 1 - s.restitution * s.restitution := by nlinarith
  have ha : (0:ℚ) ≤ (1 - s.restitution * s.restitution) * (s.vx * s.vx) :=
    mul_nonneg he2 (mul_self_nonneg s.vx)
  rw [collide_vx]
  split_ifs <;> nlinarith [abs_mul_abs_self s.vx, mul_self_nonneg s.restitution]

theorem collide_vy_sq_ge (w h : ℚ) (s : PoolState)
    (h0 : 0 ≤ s.restitution) (h1 : s.restitution ≤ 1) :
    s.restitution * s.restitution * (s.vy * s.vy)
      ≤ (collideWallsAndTrackLoss w h s).vy * (collideWallsAndTrackLoss w h s).vy := by
  have he2 : (0:ℚ) ≤ 1 - s.restitution * s.restitution := by nlinarith
  have ha : (0:ℚ) ≤ (1 - s.restitution * s.restitution) * (s.vy * s.vy) :=
    mul_nonneg he2 (mul_self_nonneg s.vy)
  rw [collide_vy]
  split_ifs <;> nlinarith [abs_mul_abs_self s.vy, mul_self_nonneg s.restitution]

theorem collide_vx_sq_of_elastic (w h : ℚ) (s : PoolState)
    (h1 : 1 ≤ s.restitution) (h2 : s.restitution ≤ 1) :
    (collideWallsAndTrackLoss w h s).vx * (collideWallsAndTrackLoss w h s).vx
      = s.vx * s.vx := by
  have he : s.restitution = 1 := le_antisymm h2 h1
  rw [collide_vx, he]
  split_ifs <;> nlinarith [abs_mul_abs_self s.vx]

theorem collide_vy_sq_of_elastic (w h : ℚ) (s : PoolState)
    (h1 : 1 ≤ s.restitution) (h2 : s.restitution ≤ 1) :
    (collideWallsAndTrackLoss w h s).vy * (collideWallsAndTrackLoss w h s).vy
      = s.vy * s.vy := by
  have he : s.restitution = 1 := le_antisymm h2 h1
  rw [collide_vy, he]
  split_ifs <;> nlinarith [abs_mul_abs_self s.vy]

theorem collide_speedSq_le (w h : ℚ) (s : PoolState)
    (h0 : 0 ≤ s.restitution) (h1 : s.restitution ≤ 1) :
    speedSq (collideWallsAndTrackLoss w h s) ≤ speedSq s := by
  have := collide_vx_sq_le w h s h0 h1
  have := collide_vy_sq_le w h s h0 h1
  simp only [speedSq]
  linarith

theorem collide_speedSq_ge (w h : ℚ) (s : PoolState)
    (h0 : 0 ≤ s.restitution) (h1 : s.restitution ≤ 1) :
    s.restitution * s.restitution * speedSq s ≤ speedSq (collideWallsAndTrackLoss w h s) := by
  have := collide_vx_sq_ge w h s h0 h1
  have := collide_vy_sq_ge w h s h0 h1
  simp only [speedSq]
  nlinarith

theorem collide_Winel_mono (w h : ℚ) (s : PoolState) :
    s.Winel ≤ (collideWallsAndTrackLoss w h s).Winel := by
  rw [collide_Winel]
  split_ifs <;> linarith

theorem collide_energy (w h : ℚ) (s : PoolState)
    (h0 : 0 ≤ s.restitution) (h1 : s.restitution ≤ 1) :
    speedSq (collideWallsAndTrackLoss w h s) + 2 * (collideWallsAndTrackLoss w h s).Winel
      = speedSq s + 2 * s.Winel := by
  have hxle := collide_vx_sq_le w h s h0 h1
  have hyle := collide_vy_sq_le w h s h0 h1
  rw [speedSq, speedSq, collide_Winel]
  by_cases hc : (s.x - s.r < 0 ∨ s.x + s.r > w ∨ s.y - s.r < 0 ∨ s.y + s.r > h) ∧
      s.restitution < 1
  · rw [if_pos hc]
    by_cases hdE : (s.vx * s.vx + s.vy * s.vy -
        ((collideWallsAndTrackLoss w h s).vx * (collideWallsAndTrackLoss w h s).vx +
         (collideWallsAndTrackLoss w h s).vy * (collideWallsAndTrackLoss w h s).vy)) / 2 > 0
    · rw [if_pos hdE]; ring
    · rw [if_neg hdE]
      rw [gt_iff_lt, not_lt] at hdE
      linarith
  · rw [if_neg hc]
    rcases not_and_or.1 hc with hnb | hne
    · have hx1 : ¬(s.x - s.r < 0) := fun hh => hnb (Or.inl hh)
      have hx2 : ¬(s.x + s.r > w) := fun hh => hnb (Or.inr (Or.inl hh))
      have hy1 : ¬(s.y - s.r < 0) := fun hh => hnb (Or.inr (Or.inr (Or.inl hh)))
      have hy2 : ¬(s.y + s.r > h) := fun hh => hnb (Or.inr (Or.inr (Or.inr hh)))
      rw [collide_vx, collide_vy, if_neg hx1, if_neg hx2, if_neg hy1, if_neg hy2]
    · have he1 : 1 ≤ s.restitution := not_lt.1 hne
      rw [collide_vx_sq_of_elastic w h s he1 h1, collide_vy_sq_of_elastic w h s he1 h1]

/-! ### Energy accounting of the friction step -/

theorem friction_Wfric_mono (s : PoolState) : s.Wfric ≤ (applyFrictionAndTrackLoss s).Wfric := by
  rw [friction_Wfric]
  split_ifs <;> linarith

theorem friction_speedSq_of_lt (s : PoolState) (hf : s.frictionFactor < 1) :
    speedSq (applyFrictionAndTrackLoss s) =
      s.frictionFactor * s.frictionFactor * speedSq s := by
  rw [speedSq, speedSq, friction_vx, friction_vy, if_neg (not_le.2 hf), if_neg (not_le.2 hf)]
  ring

theorem friction_energy (s : PoolState) (h0 : 0 ≤ s.frictionFactor) :
    speedSq (applyFrictionAndTrackLoss s) + 2 * (applyFrictionAndTrackLoss s).Wfric
      = speedSq s + 2 * s.Wfric := by
  by_cases hf : 1 ≤ s.frictionFactor
  · rw [friction_of_ge_one s hf]
  · have hf' : s.frictionFactor < 1 := not_le.1 hf
    have he2 : (0:ℚ) ≤ 1 - s.frictionFactor * s.frictionFactor := by nlinarith
    have ha : (0:ℚ) ≤ (1 - s.frictionFactor * s.frictionFactor) * (s.vx * s.vx) :=
      mul_nonneg he2 (mul_self_nonneg s.vx)
    have hb : (0:ℚ) ≤ (1 - s.frictionFactor * s.frictionFactor) * (s.vy * s.vy) :=
      mul_nonneg he2 (mul_self_nonneg s.vy)
    rw [speedSq, speedSq, friction_vx, friction_vy, friction_Wfric,
      if_neg hf, if_neg hf, if_neg hf]
    split_ifs with hdE
    · ring
    · rw [gt_iff_lt, not_lt] at hdE
      nlinarith

theorem friction_speedSq_ge (s : PoolState)
    (_h0 : 0 ≤ s.frictionFactor) (h1 : s.frictionFactor ≤ 1) :
    s.frictionFactor * s.frictionFactor * speedSq s ≤ speedSq (applyFrictionAndTrackLoss s) := by
  by_cases hf : 1 ≤ s.frictionFactor
  · have hf1 : s.frictionFactor = 1 := le_antisymm h1 hf
    rw [friction_of_ge_one s hf, hf1, one_mul, one_mul]
  · have hf' : s.frictionFactor < 1 := not_le.1 hf
    rw [friction_speedSq_of_lt s hf']

theorem friction_speedSq_le (s : PoolState)
    (h0 : 0 ≤ s.frictionFactor) :
    speedSq (applyFrictionAndTrackLoss s) ≤ speedSq s := by
  by_cases hf : 1 ≤ s.frictionFactor
  · rw [friction_of_ge_one s hf]
  · have hf' : s.frictionFactor < 1 := not_le.1 hf
    rw [friction_speedSq_of_lt s hf']
    have h2 : (0:ℚ) ≤ 1 - s.frictionFactor * s.frictionFactor := by nlinarith
    nlinarith [speedSq_nonneg s]

/-! ### Behaviour of `energyCorrection` on a ledger in deficit -/

theorem correction_Wfric_mono (s : PoolState)
    (hd : speedSq s / 2 + s.Wfric + s.Winel ≤ s.E0) :
    s.Wfric ≤ (energyCorrection s).Wfric := by
  have hd' : 0 ≤ s.E0 - ((s.vx * s.vx + s.vy * s.vy) / 2 + s.Wfric + s.Winel) := by
    simp only [speedSq] at hd
    linarith
  rw [correction_Wfric]
  split_ifs with hc
  · exact le_trans (by linarith) (le_max_right _ _)
  · exact le_rfl

theorem correction_sum_le (s : PoolState) (hW : 0 ≤ s.Wfric)
    (hd : speedSq s / 2 + s.Wfric + s.Winel ≤ s.E0) :
    |(energyCorrection s).Etrans + (energyCorrection s).Wfric + (energyCorrection s).Winel
        - s.E0| ≤ 1 / 1000000 := by
  have hd' : 0 ≤ s.E0 - ((s.vx * s.vx + s.vy * s.vy) / 2 + s.Wfric + s.Winel) := by
    simp only [speedSq] at hd
    linarith
  rw [correction_Etrans, correction_Wfric, correction_Winel]
  split_ifs with hc
  · have hmax : max 0 (s.Wfric + (s.E0 - ((s.vx * s.vx + s.vy * s.vy) / 2 + s.Wfric + s.Winel)))
        = s.Wfric + (s.E0 - ((s.vx * s.vx + s.vy * s.vy) / 2 + s.Wfric + s.Winel)) :=
      max_eq_right (by linarith)
    rw [hmax]
    have hz : (s.vx * s.vx + s.vy * s.vy) / 2 +
        (s.Wfric + (s.E0 - ((s.vx * s.vx + s.vy * s.vy) / 2 + s.Wfric + s.Winel))) + s.Winel
        - s.E0 = 0 := by ring
    rw [hz, abs_zero]
    norm_num
  · rw [gt_iff_lt, not_lt] at hc
    have hz : (s.vx * s.vx + s.vy * s.vy) / 2 + s.Wfric + s.Winel - s.E0
        = -(s.E0 - ((s.vx * s.vx + s.vy * s.vy) / 2 + s.Wfric + s.Winel)) := by ring
    rw [hz, abs_neg]
    exact hc

theorem correction_exact (s : PoolState)
    (hsum : speedSq s / 2 + s.Wfric + s.Winel = s.E0) :
    energyCorrection s = { s with Etrans := (s.vx * s.vx + s.vy * s.vy) / 2 } := by
  have h0 : s.E0 - ((s.vx * s.vx + s.vy * s.vy) / 2 + s.Wfric + s.Winel) = 0 := by
    simp only [speedSq] at hsum
    linarith
  simp only [energyCorrection, h0, abs_zero]
  norm_num

theorem correction_fold (s : PoolState) (hW : 0 ≤ s.Wfric)
    (hbig : 1 / 1000000 < s.E0 - (speedSq s / 2 + s.Wfric + s.Winel)) :
    (energyCorrection s).Wfric
      = s.Wfric + (s.E0 - ((s.vx * s.vx + s.vy * s.vy) / 2 + s.Wfric + s.Winel)) := by
  have hbig' : 1 / 1000000 < s.E0 - ((s.vx * s.vx + s.vy * s.vy) / 2 + s.Wfric + s.Winel) := by
    simp only [speedSq] at hbig
    linarith
  have hpos : 0 < s.E0 - ((s.vx * s.vx + s.vy * s.vy) / 2 + s.Wfric + s.Winel) :=
    lt_trans (by norm_num) hbig'
  have hcond : |s.E0 - ((s.vx * s.vx + s.vy * s.vy) / 2 + s.Wfric + s.Winel)| > 1 / 1000000 := by
    rw [abs_of_pos hpos]
    exact hbig'
  rw [correction_Wfric, if_pos hcond, max_eq_right (by linarith)]

/-! ### Sample buffer facts -/

theorem sampleEnergy_mem (cap : ℕ) (u : PoolState) (smp : Sample)
    (hmem : smp ∈ (sampleEnergy cap u).samples) :
    smp ∈ u.samples ∨ smp = Sample.mk u.t u.Etrans u.Wfric u.Winel := by
  rw [sample_samples] at hmem
  split_ifs at hmem
  · rcases List.mem_append.1 (List.tail_subset _ hmem) with h1 | h2
    · exact Or.inl h1
    · exact Or.inr (List.mem_singleton.1 h2)
  · rcases List.mem_append.1 hmem with h1 | h2
    · exact Or.inl h1
    · exact Or.inr (List.mem_singleton.1 h2)

theorem sampleEnergy_length_le (cap : ℕ) (u : PoolState)
    (hl : u.samples.length ≤ cap) :
    (sampleEnergy cap u).samples.length ≤ cap := by
  rw [sample_samples]
  split_ifs with hc
  · rw [List.length_tail, List.length_append, List.length_singleton]
    omega
  · rw [List.length_append, List.length_singleton] at hc ⊢
    omega

/-! ### Facts about the collide-then-friction composite -/

theorem phys_facts (w h : ℚ) (u : PoolState)
    (he0 : 0 ≤ u.restitution) (he1 : u.restitution ≤ 1) (hf0 : 0 ≤ u.frictionFactor)
    (hsum : speedSq u / 2 + u.Wfric + u.Winel = u.E0) :
    speedSq (applyFrictionAndTrackLoss (collideWallsAndTrackLoss w h u)) / 2 +
        (applyFrictionAndTrackLoss (collideWallsAndTrackLoss w h u)).Wfric +
        (applyFrictionAndTrackLoss (collideWallsAndTrackLoss w h u)).Winel = u.E0 ∧
    u.Wfric ≤ (applyFrictionAndTrackLoss (collideWallsAndTrackLoss w h u)).Wfric ∧
    u.Winel ≤ (applyFrictionAndTrackLoss (collideWallsAndTrackLoss w h u)).Winel ∧
    (applyFrictionAndTrackLoss (collideWallsAndTrackLoss w h u)).E0 = u.E0 ∧
    (applyFrictionAndTrackLoss (collideWallsAndTrackLoss w h u)).mode = u.mode ∧
    (applyFrictionAndTrackLoss (collideWallsAndTrackLoss w h u)).t = u.t ∧
    (applyFrictionAndTrackLoss (collideWallsAndTrackLoss w h u)).samples = u.samples ∧
    (applyFrictionAndTrackLoss (collideWallsAndTrackLoss w h u)).frictionFactor
      = u.frictionFactor ∧
    (applyFrictionAndTrackLoss (collideWallsAndTrackLoss w h u)).restitution = u.restitution ∧
    (applyFrictionAndTrackLoss (collideWallsAndTrackLoss w h u)).r = u.r ∧
    (u.frictionFactor < 1 →
      speedSq (applyFrictionAndTrackLoss (collideWallsAndTrackLoss w h u)) ≤
        u.frictionFactor * u.frictionFactor * speedSq u) ∧
    speedSq (applyFrictionAndTrackLoss (collideWallsAndTrackLoss w h u)) ≤ speedSq u := by
  have hcE := collide_energy w h u he0 he1
  have hcW := collide_Wfric w h u
  have hcE0 := collide_E0 w h u
  have hcMode := collide_mode w h u
  have hct := collide_t w h u
  have hcS := collide_samples w h u
  have hcF := collide_frictionFactor w h u
  have hcR := collide_restitution w h u
  have hcr := collide_r w h u
  have hcWm := collide_Winel_mono w h u
  have hcle := collide_speedSq_le w h u he0 he1
  have hfE := friction_energy (collideWallsAndTrackLoss w h u) (hcF ▸ hf0)
  have hfWm := friction_Wfric_mono (collideWallsAndTrackLoss w h u)
  have hfWi := friction_Winel (collideWallsAndTrackLoss w h u)
  have hfE0 := friction_E0 (collideWallsAndTrackLoss w h u)
  have hfMode := friction_mode (collideWallsAndTrackLoss w h u)
  have hft := friction_t (collideWallsAndTrackLoss w h u)
  have hfS := friction_samples (collideWallsAndTrackLoss w h u)
  have hfF := friction_frictionFactor (collideWallsAndTrackLoss w h u)
  have hfR := friction_restitution (collideWallsAndTrackLoss w h u)
  have hfr := friction_r (collideWallsAndTrackLoss w h u)
  refine ⟨by linarith, by linarith, by rw [hfWi]; exact hcWm, by rw [hfE0, hcE0],
    by rw [hfMode, hcMode], by rw [hft, hct], by rw [hfS, hcS], by rw [hfF, hcF],
    by rw [hfR, hcR], by rw [hfr, hcr], ?_, ?_⟩
  · intro hlt
    have hlt' : (collideWallsAndTrackLoss w h u).frictionFactor < 1 := by rw [hcF]; exact hlt
    have hfsp := friction_speedSq_of_lt (collideWallsAndTrackLoss w h u) hlt'
    rw [hfsp, hcF]
    have hff : 0 ≤ u.frictionFactor * u.frictionFactor := mul_self_nonneg _
    exact mul_le_mul_of_nonneg_left hcle hff
  · have hfle := friction_speedSq_le (collideWallsAndTrackLoss w h u) (hcF ▸ hf0)
    exact le_trans hfle hcle


theorem movingFrame_facts (w h : ℚ) (cap : ℕ) (dt : ℚ) (s M : PoolState)
    (hM : M = movingFrame w h cap dt s)
    (hp : ParamsOK s) (hb : LedgerPre s) :
    M.E0 = s.E0 ∧
    M.frictionFactor = s.frictionFactor ∧
    M.restitution = s.restitution ∧
    M.r = s.r ∧
    s.Wfric ≤ M.Wfric ∧
    s.Winel ≤ M.Winel ∧
    |M.Etrans + M.Wfric + M.Winel - s.E0| ≤ 1 / 1000000 ∧
    (M.mode = s.mode ∨ M.mode = Mode.idle) ∧
    (M.mode = Mode.moving →
      LedgerPre M ∧ M.Etrans = speedSq M / 2 ∧ 1 / 10000 ≤ speedSq M ∧ M.mode = s.mode) ∧
    (∀ smp ∈ M.samples, smp ∈ s.samples ∨ smp = Sample.mk M.t M.Etrans M.Wfric M.Winel) ∧
    (s.frictionFactor < 1 → speedSq M ≤ s.frictionFactor * s.frictionFactor * speedSq s) ∧
    speedSq M ≤ speedSq s := by
  obtain ⟨he0, he1, hf0⟩ := hp
  obtain ⟨hsum, hW, hWi⟩ := hb
  have hphys := phys_facts w h { s with t := s.t + dt, x := s.x + s.vx, y := s.y + s.vy }
    he0 he1 hf0 hsum
  set D := applyFrictionAndTrackLoss (collideWallsAndTrackLoss w h
    { s with t := s.t + dt, x := s.x + s.vx, y := s.y + s.vy }) with hD
  obtain ⟨hDsum, hDWf, hDWi, hDE0, hDmode, hDt, hDS, hDF, hDR, hDr, hDdec, hDle⟩ := hphys
  have hDW0 : 0 ≤ D.Wfric := le_trans hW hDWf
  have hDWi0 : 0 ≤ D.Winel := le_trans hWi hDWi
  have hMeq : movingFrame w h cap dt s =
      sampleEnergy cap (energyCorrection
        (if D.vx * D.vx + D.vy * D.vy < 1 / 10000 then
          { D with vx := 0, vy := 0, mode := Mode.idle }
        else D)) := by
    rw [hD]
    rfl
  by_cases hstop : D.vx * D.vx + D.vy * D.vy < 1 / 10000
  · -- the stop threshold fired: velocity zeroed, mode set to idle
    rw [if_pos hstop] at hMeq
    have hZsum : speedSq ({ D with vx := 0, vy := 0, mode := Mode.idle } : PoolState) / 2 +
        ({ D with vx := 0, vy := 0, mode := Mode.idle } : PoolState).Wfric +
        ({ D with vx := 0, vy := 0, mode := Mode.idle } : PoolState).Winel ≤
        ({ D with vx := 0, vy := 0, mode := Mode.idle } : PoolState).E0 := by
      show (0 * 0 + 0 * 0 : ℚ) / 2 + D.Wfric + D.Winel ≤ D.E0
      rw [hDE0]
      have : (0:ℚ) ≤ speedSq D / 2 := by
        have := speedSq_nonneg D
        linarith
      simp only [speedSq] at this hDsum ⊢
      linarith
    have hcmono := correction_Wfric_mono { D with vx := 0, vy := 0, mode := Mode.idle } hZsum
    have hcsum := correction_sum_le { D with vx := 0, vy := 0, mode := Mode.idle } hDW0 hZsum
    subst hM
    rw [hMeq]
    refine ⟨?_, ?_, ?_, ?_, ?_, ?_, ?_, ?_, ?_, ?_, ?_, ?_⟩
    · rw [sample_E0, correction_E0]
      exact hDE0
    · rw [sample_frictionFactor, correction_frictionFactor]
      exact hDF
    · rw [sample_restitution, correction_restitution]
      exact hDR
    · rw [sample_r, correction_r]
      exact hDr
    · rw [sample_Wfric]
      exact le_trans hDWf hcmono
    · rw [sample_Winel, correction_Winel]
      exact hDWi
    · rw [sample_Etrans, sample_Wfric, sample_Winel]
      have hE0eq : ({ D with vx := 0, vy := 0, mode := Mode.idle } : PoolState).E0 = s.E0 :=
        hDE0
      rw [← hE0eq]
      exact hcsum
    · rw [sample_mode, correction_mode]
      exact Or.inr rfl
    · rw [sample_mode, correction_mode]
      intro hmm
      exact absurd hmm (by simp)
    · intro smp hmem
      rcases sampleEnergy_mem cap _ smp hmem with hold | hnew
      · rw [correction_samples] at hold
        left
        exact hDS ▸ hold
      · right
        rw [hnew]
        rw [sample_t, sample_Etrans, sample_Wfric, sample_Winel]
    · intro hlt
      have : speedSq (sampleEnergy cap (energyCorrection
          ({ D with vx := 0, vy := 0, mode := Mode.idle } : PoolState))) = 0 := by
        simp only [speedSq, sample_vx, sample_vy, correction_vx, correction_vy]
        norm_num
      rw [this]
      exact mul_nonneg (mul_self_nonneg _) (speedSq_nonneg s)
    · have : speedSq (sampleEnergy cap (energyCorrection
          ({ D with vx := 0, vy := 0, mode := Mode.idle } : PoolState))) = 0 := by
        simp only [speedSq, sample_vx, sample_vy, correction_vx, correction_vy]
        norm_num
      rw [this]
      exact speedSq_nonneg s
  · -- no stop: the ledger stays exactly balanced
    rw [if_neg hstop] at hMeq
    have hDsum' : speedSq D / 2 + D.Wfric + D.Winel = D.E0 := by
      rw [hDE0]
      exact hDsum
    have hcex := correction_exact D hDsum'
    rw [hcex] at hMeq
    subst hM
    rw [hMeq]
    have hspM : speedSq (sampleEnergy cap
        ({ D with Etrans := (D.vx * D.vx + D.vy * D.vy) / 2 } : PoolState)) = speedSq D := rfl
    refine ⟨?_, ?_, ?_, ?_, ?_, ?_, ?_, ?_, ?_, ?_, ?_, ?_⟩
    · exact hDE0
    · exact hDF
    · exact hDR
    · exact hDr
    · exact hDWf
    · exact hDWi
    · have hz : (D.vx * D.vx + D.vy * D.vy) / 2 + D.Wfric + D.Winel - s.E0 = 0 := by
        simp only [speedSq] at hDsum
        linarith
      show |(D.vx * D.vx + D.vy * D.vy) / 2 + D.Wfric + D.Winel - s.E0| ≤ 1 / 1000000
      rw [hz, abs_zero]
      norm_num
    · left
      exact hDmode
    · intro _
      refine ⟨⟨?_, le_trans hW hDWf, le_trans hWi hDWi⟩, ?_, ?_, ?_⟩
      · show speedSq D / 2 + D.Wfric + D.Winel = D.E0
        exact hDsum'
      · rw [hspM]
        rfl
      · rw [hspM]
        exact not_lt.1 hstop
      · exact hDmode
    · intro smp hmem
      rcases sampleEnergy_mem cap _ smp hmem with hold | hnew
      · left
        exact hDS ▸ hold
      · right
        exact hnew
    · intro hlt
      rw [hspM]
      exact hDdec hlt
    · rw [hspM]
      exact hDle


/-! ### Unconditional frame facts and the trace invariant -/

theorem movingFrame_frictionFactor (w h : ℚ) (cap : ℕ) (dt : ℚ) (s : PoolState) :
    (movingFrame w h cap dt s).frictionFactor = s.frictionFactor := by
  simp only [movingFrame, sample_frictionFactor, correction_frictionFactor,
    apply_ite PoolState.frictionFactor, ite_self, friction_frictionFactor,
    collide_frictionFactor]

theorem movingFrame_restitution (w h : ℚ) (cap : ℕ) (dt : ℚ) (s : PoolState) :
    (movingFrame w h cap dt s).restitution = s.restitution := by
  simp only [movingFrame, sample_restitution, correction_restitution,
    apply_ite PoolState.restitution, ite_self, friction_restitution, collide_restitution]

theorem movingFrame_E0 (w h : ℚ) (cap : ℕ) (dt : ℚ) (s : PoolState) :
    (movingFrame w h cap dt s).E0 = s.E0 := by
  simp only [movingFrame, sample_E0, correction_E0,
    apply_ite PoolState.E0, ite_self, friction_E0, collide_E0]

theorem movingFrame_mode_cases (w h : ℚ) (cap : ℕ) (dt : ℚ) (s : PoolState) :
    (movingFrame w h cap dt s).mode = s.mode ∨ (movingFrame w h cap dt s).mode = Mode.idle := by
  have : (movingFrame w h cap dt s).mode =
      (if (applyFrictionAndTrackLoss (collideWallsAndTrackLoss w h
            { s with t := s.t + dt, x := s.x + s.vx, y := s.y + s.vy })).vx *
          (applyFrictionAndTrackLoss (collideWallsAndTrackLoss w h
            { s with t := s.t + dt, x := s.x + s.vx, y := s.y + s.vy })).vx +
          (applyFrictionAndTrackLoss (collideWallsAndTrackLoss w h
            { s with t := s.t + dt, x := s.x + s.vx, y := s.y + s.vy })).vy *
          (applyFrictionAndTrackLoss (collideWallsAndTrackLoss w h
            { s with t := s.t + dt, x := s.x + s.vx, y := s.y + s.vy })).vy < 1 / 10000 then
        Mode.idle
      else s.mode) := by
    simp only [movingFrame, sample_mode, correction_mode, apply_ite PoolState.mode,
      friction_mode, collide_mode]
  rw [this]
  split_ifs
  · exact Or.inr rfl
  · exact Or.inl rfl

theorem movingFrame_samples_length (w h : ℚ) (cap : ℕ) (dt : ℚ) (s : PoolState)
    (hl : s.samples.length ≤ cap) :
    (movingFrame w h cap dt s).samples.length ≤ cap := by
  apply sampleEnergy_length_le
  have : (energyCorrection
      (if (applyFrictionAndTrackLoss (collideWallsAndTrackLoss w h
            { s with t := s.t + dt, x := s.x + s.vx, y := s.y + s.vy })).vx *
          (applyFrictionAndTrackLoss (collideWallsAndTrackLoss w h
            { s with t := s.t + dt, x := s.x + s.vx, y := s.y + s.vy })).vx +
          (applyFrictionAndTrackLoss (collideWallsAndTrackLoss w h
            { s with t := s.t + dt, x := s.x + s.vx, y := s.y + s.vy })).vy *
          (applyFrictionAndTrackLoss (collideWallsAndTrackLoss w h
            { s with t := s.t + dt, x := s.x + s.vx, y := s.y + s.vy })).vy < 1 / 10000 then
        { applyFrictionAndTrackLoss (collideWallsAndTrackLoss w h
            { s with t := s.t + dt, x := s.x + s.vx, y := s.y + s.vy }) with
            vx := 0, vy := 0, mode := Mode.idle }
      else applyFrictionAndTrackLoss (collideWallsAndTrackLoss w h
            { s with t := s.t + dt, x := s.x + s.vx, y := s.y + s.vy }))).samples
      = s.samples := by
    rw [correction_samples]
    split_ifs
    · show (applyFrictionAndTrackLoss (collideWallsAndTrackLoss w h _)).samples = _
      rw [friction_samples, collide_samples]
    · rw [friction_samples, collide_samples]
  rw [this]
  exact hl

theorem loopFrame_of_ne (w h : ℚ) (cap : ℕ) (dt : ℚ) (s : PoolState)
    (hm : s.mode ≠ Mode.moving) :
    loopFrame w h cap dt s = s := if_neg hm

theorem loopFrame_of_moving (w h : ℚ) (cap : ℕ) (dt : ℚ) (s : PoolState)
    (hm : s.mode = Mode.moving) :
    loopFrame w h cap dt s = movingFrame w h cap dt s := if_pos hm

theorem runTrace_nil (w h : ℚ) (cap : ℕ) (s : PoolState) :
    runTrace w h cap s [] = s := rfl

theorem runTrace_cons (w h : ℚ) (cap : ℕ) (s : PoolState) (dt : ℚ) (dts : List ℚ) :
    runTrace w h cap s (dt :: dts) = runTrace w h cap (loopFrame w h cap dt s) dts := rfl

theorem runTrace_frozen (w h : ℚ) (cap : ℕ) :
    ∀ (dts : List ℚ) (s : PoolState), s.mode ≠ Mode.moving → runTrace w h cap s dts = s := by
  intro dts
  induction dts with
  | nil => intro s _; rfl
  | cons dt rest ih =>
    intro s hm
    rw [runTrace_cons, loopFrame_of_ne w h cap dt s hm]
    exact ih s hm

theorem loopFrame_shotInv (w h : ℚ) (cap : ℕ) (dt : ℚ) (E0 : ℚ) (s : PoolState)
    (hI : ShotInv E0 s) : ShotInv E0 (loopFrame w h cap dt s) := by
  obtain ⟨hE0, hp, hsamp, hpre⟩ := hI
  by_cases hm : s.mode = Mode.moving
  · rw [loopFrame_of_moving w h cap dt s hm]
    obtain ⟨hME0, hMF, hMR, _, _, _, hMsum, _, hMmov, hMsmp, _, _⟩ :=
      movingFrame_facts w h cap dt s _ rfl hp (hpre hm)
    refine ⟨by rw [hME0]; exact hE0, ?_, ?_, ?_⟩
    · obtain ⟨hp1, hp2, hp3⟩ := hp
      exact ⟨by rw [hMR]; exact hp1, by rw [hMR]; exact hp2, by rw [hMF]; exact hp3⟩
    · intro smp hmem
      rcases hMsmp smp hmem with hold | hnew
      · exact hsamp smp hold
      · rw [hnew]
        show |(movingFrame w h cap dt s).Etrans + (movingFrame w h cap dt s).Wfric +
          (movingFrame w h cap dt s).Winel - E0| ≤ 1 / 1000000
        rw [← hE0]
        exact hMsum
    · intro hmm
      exact (hMmov hmm).1
  · rw [loopFrame_of_ne w h cap dt s hm]
    exact ⟨hE0, hp, hsamp, fun hmm => absurd hmm hm⟩

theorem runTrace_shotInv (w h : ℚ) (cap : ℕ) (E0 : ℚ) :
    ∀ (dts : List ℚ) (s : PoolState), ShotInv E0 s → ShotInv E0 (runTrace w h cap s dts) := by
  intro dts
  induction dts with
  | nil => intro s hI; exact hI
  | cons dt rest ih =>
    intro s hI
    rw [runTrace_cons]
    exact ih _ (loopFrame_shotInv w h cap dt E0 s hI)

theorem launchShot_mode (cap : ℕ) (vx vy : ℚ) (s : PoolState) :
    (launchShot cap vx vy s).mode = Mode.moving := rfl

theorem launchShot_E0 (cap : ℕ) (vx vy : ℚ) (s : PoolState) :
    (launchShot cap vx vy s).E0 = (vx * vx + vy * vy) / 2 := rfl

theorem launchShot_shotInv (cap : ℕ) (vx vy : ℚ) (s : PoolState)
    (he0 : 0 ≤ s.restitution) (he1 : s.restitution ≤ 1) (hf0 : 0 ≤ s.frictionFactor) :
    ShotInv ((vx * vx + vy * vy) / 2) (launchShot cap vx vy s) := by
  refine ⟨rfl, ⟨he0, he1, hf0⟩, ?_, ?_⟩
  · intro smp hmem
    rcases sampleEnergy_mem cap _ smp hmem with hold | hnew
    · exact absurd hold (List.not_mem_nil smp)
    · rw [hnew]
      show |(vx * vx + vy * vy) / 2 + 0 + 0 - (vx * vx + vy * vy) / 2| ≤ 1 / 1000000
      rw [show (vx * vx + vy * vy) / 2 + 0 + 0 - (vx * vx + vy * vy) / 2 = 0 by ring, abs_zero]
      norm_num
  · intro _
    refine ⟨?_, le_refl 0, le_refl 0⟩
    show (vx * vx + vy * vy) / 2 + 0 + 0 = (vx * vx + vy * vy) / 2
    ring


theorem runTrace_samples_length (w h : ℚ) (cap : ℕ) :
    ∀ (dts : List ℚ) (s : PoolState), s.samples.length ≤ cap →
      (runTrace w h cap s dts).samples.length ≤ cap := by
  intro dts
  induction dts with
  | nil => intro s hl; exact hl
  | cons dt rest ih =>
    intro s hl
    rw [runTrace_cons]
    apply ih
    by_cases hm : s.mode = Mode.moving
    · rw [loopFrame_of_moving w h cap dt s hm]
      exact movingFrame_samples_length w h cap dt s hl
    · rw [loopFrame_of_ne w h cap dt s hm]
      exact hl

theorem launchShot_samples_length (cap : ℕ) (vx vy : ℚ) (s : PoolState) :
    (launchShot cap vx vy s).samples.length ≤ cap ⊔ 1 := by
  by_cases hcap : 1 ≤ cap
  · have := sampleEnergy_length_le cap
      ({ s with mode := Mode.moving, vx := vx, vy := vy, aimX := 0, aimY := 0,
                E0 := (vx * vx + vy * vy) / 2, Etrans := (vx * vx + vy * vy) / 2,
                Wfric := 0, Winel := 0, t := 0, samples := [] } : PoolState)
      (by show (List.length ([] : List Sample)) ≤ cap; simp)
    exact le_trans this (le_max_left cap 1)
  · have hc0 : cap = 0 := by omega
    subst hc0
    show (if ([] ++ [Sample.mk 0 ((vx * vx + vy * vy) / 2) 0 0]).length > 0 then
        ([] ++ [Sample.mk 0 ((vx * vx + vy * vy) / 2) 0 0]).tail
      else ([] ++ [Sample.mk 0 ((vx * vx + vy * vy) / 2) 0 0])).length ≤ 0 ⊔ 1
    norm_num

/-- C1: after a shot is launched, at every sample recorded in the sample
buffer the sum `Etrans + Wfric + Winel` agrees with the stored launch
energy `E0 = ½·(vx²+vy²)` to within `1e-6`. -/
theorem C1_conservation_invariant (w h : ℚ) (cap : ℕ) (vx vy : ℚ) (s0 : PoolState)
    (dts : List ℚ)
    (he0 : 0 ≤ s0.restitution) (he1 : s0.restitution ≤ 1) (hf0 : 0 ≤ s0.frictionFactor) :
    (runTrace w h cap (launchShot cap vx vy s0) dts).E0 = (vx * vx + vy * vy) / 2 ∧
    ∀ smp ∈ (runTrace w h cap (launchShot cap vx vy s0) dts).samples,
      |smp.Etrans + smp.Wfric + smp.Winel -
        (runTrace w h cap (launchShot cap vx vy s0) dts).E0| ≤ 1 / 1000000 := by
  have hI := runTrace_shotInv w h cap ((vx * vx + vy * vy) / 2) dts _
    (launchShot_shotInv cap vx vy s0 he0 he1 hf0)
  obtain ⟨hE0, _, hs, _⟩ := hI
  refine ⟨hE0, ?_⟩
  intro smp hmem
  rw [hE0]
  exact hs smp hmem

theorem C1_conservation_invariant_witness :
    (runTrace 300 200 2400 (launchShot 2400 8 0 exBase) [1/60, 1/60, 1/60]).E0
      = (8 * 8 + 0 * 0) / 2 :=
  (C1_conservation_invariant 300 200 2400 8 0 exBase [1/60, 1/60, 1/60]
    (by with_unfolding_all decide) (by with_unfolding_all decide)
    (by with_unfolding_all decide)).1

/-- C7: the sample buffer is bounded: each `sampleEnergy` call appends one
tuple and evicts the oldest when the cap is exceeded, so along any run of a
shot the buffer never holds more than `samplesMax = 2400` entries. -/
theorem C7_bounded_sample_buffer (w h : ℚ) (vx vy : ℚ) (s0 : PoolState) (dts : List ℚ) :
    (∀ s : PoolState,
      (sampleEnergy samplesMax s).samples =
        (if (s.samples ++ [Sample.mk s.t s.Etrans s.Wfric s.Winel]).length > samplesMax then
          (s.samples ++ [Sample.mk s.t s.Etrans s.Wfric s.Winel]).tail
         else s.samples ++ [Sample.mk s.t s.Etrans s.Wfric s.Winel])) ∧
    (∀ s : PoolState, s.samples.length ≤ samplesMax →
      (sampleEnergy samplesMax s).samples.length ≤ samplesMax) ∧
    (runTrace w h samplesMax (launchShot samplesMax vx vy s0) dts).samples.length
      ≤ samplesMax := by
  refine ⟨fun s => sample_samples samplesMax s,
    fun s hl => sampleEnergy_length_le samplesMax s hl, ?_⟩
  apply runTrace_samples_length
  have := launchShot_samples_length samplesMax vx vy s0
  have hmax : samplesMax ⊔ 1 = samplesMax := by
    show (2400 : ℕ) ⊔ 1 = 2400
    norm_num
  rw [hmax] at this
  exact this

theorem C7_bounded_sample_buffer_witness :
    (runTrace 300 200 samplesMax (launchShot samplesMax 8 0 exBase) [1/60]).samples.length
      ≤ samplesMax :=
  (C7_bounded_sample_buffer 300 200 8 0 exBase [1/60]).2.2


theorem collide_x_bounds (w h : ℚ) (u : PoolState) (hw : 2 * u.r ≤ w) :
    u.r ≤ (collideWallsAndTrackLoss w h u).x ∧ (collideWallsAndTrackLoss w h u).x ≤ w - u.r := by
  rw [collide_x]
  split_ifs with h1 h2
  · exact ⟨le_refl _, by linarith⟩
  · exact ⟨by linarith, le_refl _⟩
  · rw [not_lt] at h1
    rw [gt_iff_lt, not_lt] at h2
    exact ⟨by linarith, by linarith⟩

theorem collide_y_bounds (w h : ℚ) (u : PoolState) (hh : 2 * u.r ≤ h) :
    u.r ≤ (collideWallsAndTrackLoss w h u).y ∧ (collideWallsAndTrackLoss w h u).y ≤ h - u.r := by
  rw [collide_y]
  split_ifs with h1 h2
  · exact ⟨le_refl _, by linarith⟩
  · exact ⟨by linarith, le_refl _⟩
  · rw [not_lt] at h1
    rw [gt_iff_lt, not_lt] at h2
    exact ⟨by linarith, by linarith⟩

theorem movingFrame_x (w h : ℚ) (cap : ℕ) (dt : ℚ) (s : PoolState) :
    (movingFrame w h cap dt s).x = (collideWallsAndTrackLoss w h
      { s with t := s.t + dt, x := s.x + s.vx, y := s.y + s.vy }).x := by
  simp only [movingFrame, sample_x, correction_x, apply_ite PoolState.x, ite_self, friction_x]

theorem movingFrame_y (w h : ℚ) (cap : ℕ) (dt : ℚ) (s : PoolState) :
    (movingFrame w h cap dt s).y = (collideWallsAndTrackLoss w h
      { s with t := s.t + dt, x := s.x + s.vx, y := s.y + s.vy }).y := by
  simp only [movingFrame, sample_y, correction_y, apply_ite PoolState.y, ite_self, friction_y]

/-- C2: containment invariant: on any frame of the moving state — whatever
the velocity, including an extreme single-frame overshoot — the position
after integration and wall resolution lies in `[r, w-r] × [r, h-r]`
(for a table at least one ball-diameter wide and tall). -/
theorem C2_containment (w h : ℚ) (cap : ℕ) (dt : ℚ) (s : PoolState)
    (hm : s.mode = Mode.moving) (hw : 2 * s.r ≤ w) (hh : 2 * s.r ≤ h) :
    s.r ≤ (loopFrame w h cap dt s).x ∧ (loopFrame w h cap dt s).x ≤ w - s.r ∧
    s.r ≤ (loopFrame w h cap dt s).y ∧ (loopFrame w h cap dt s).y ≤ h - s.r := by
  rw [loopFrame_of_moving w h cap dt s hm, movingFrame_x, movingFrame_y]
  have hx := collide_x_bounds w h
    { s with t := s.t + dt, x := s.x + s.vx, y := s.y + s.vy } hw
  have hy := collide_y_bounds w h
    { s with t := s.t + dt, x := s.x + s.vx, y := s.y + s.vy } hh
  exact ⟨hx.1, hx.2, hy.1, hy.2⟩

theorem C2_containment_witness :
    exFast.r ≤ (loopFrame 300 200 2400 1 exFast).x ∧
    (loopFrame 300 200 2400 1 exFast).x ≤ 300 - exFast.r ∧
    exFast.r ≤ (loopFrame 300 200 2400 1 exFast).y ∧
    (loopFrame 300 200 2400 1 exFast).y ≤ 200 - exFast.r :=
  C2_containment 300 200 2400 1 exFast (by with_unfolding_all decide)
    (by with_unfolding_all decide) (by with_unfolding_all decide)

/-- C3 counterexample: with the ball crossing only the right cushion at
restitution `1/2` and a nonzero `vy`, the code clamps `x`, reflects and
scales `vx`, but leaves `vy` unchanged — it does not scale the full
velocity vector by the restitution as the claim states. -/
theorem C3_counterexample :
    exC3.x + exC3.r > 300 ∧
    exC3.restitution < 1 ∧
    (collideWallsAndTrackLoss 300 200 exC3).x = 300 - exC3.r ∧
    (collideWallsAndTrackLoss 300 200 exC3).vx = -(|exC3.vx| * exC3.restitution) ∧
    (collideWallsAndTrackLoss 300 200 exC3).vy = exC3.vy ∧
    (collideWallsAndTrackLoss 300 200 exC3).vy ≠ exC3.restitution * exC3.vy := by
  with_unfolding_all decide

/-- C3 (amended): when a boundary is crossed the position is clamped to it
and only the crossed velocity component is reflected (pointed away from the
wall) and scaled by the restitution; the other component is untouched; the
kinetic-energy drop is booked into `Winel` only when positive and exactly
once per call, so simultaneous x/y crossings are not double counted
(`speedSq + 2·Winel` is exactly preserved). -/
theorem C3_wall_collision_contract (w h : ℚ) (s : PoolState)
    (he0 : 0 ≤ s.restitution) (he1 : s.restitution ≤ 1) :
    (s.x - s.r < 0 →
      (collideWallsAndTrackLoss w h s).x = s.r ∧
      (collideWallsAndTrackLoss w h s).vx = |s.vx| * s.restitution) ∧
    (¬(s.x - s.r < 0) → s.x + s.r > w →
      (collideWallsAndTrackLoss w h s).x = w - s.r ∧
      (collideWallsAndTrackLoss w h s).vx = -|s.vx| * s.restitution) ∧
    (¬(s.x - s.r < 0) → ¬(s.x + s.r > w) →
      (collideWallsAndTrackLoss w h s).x = s.x ∧
      (collideWallsAndTrackLoss w h s).vx = s.vx) ∧
    (s.y - s.r < 0 →
      (collideWallsAndTrackLoss w h s).y = s.r ∧
      (collideWallsAndTrackLoss w h s).vy = |s.vy| * s.restitution) ∧
    (¬(s.y - s.r < 0) → s.y + s.r > h →
      (collideWallsAndTrackLoss w h s).y = h - s.r ∧
      (collideWallsAndTrackLoss w h s).vy = -|s.vy| * s.restitution) ∧
    (¬(s.y - s.r < 0) → ¬(s.y + s.r > h) →
      (collideWallsAndTrackLoss w h s).y = s.y ∧
      (collideWallsAndTrackLoss w h s).vy = s.vy) ∧
    speedSq (collideWallsAndTrackLoss w h s) + 2 * (collideWallsAndTrackLoss w h s).Winel
      = speedSq s + 2 * s.Winel ∧
    s.Winel ≤ (collideWallsAndTrackLoss w h s).Winel ∧
    (collideWallsAndTrackLoss w h s).Wfric = s.Wfric := by
  refine ⟨?_, ?_, ?_, ?_, ?_, ?_, collide_energy w h s he0 he1,
    collide_Winel_mono w h s, collide_Wfric w h s⟩
  · intro h1
    rw [collide_x, collide_vx, if_pos h1, if_pos h1]
    exact ⟨rfl, rfl⟩
  · intro h1 h2
    rw [collide_x, collide_vx, if_neg h1, if_neg h1, if_pos h2, if_pos h2]
    exact ⟨rfl, rfl⟩
  · intro h1 h2
    rw [collide_x, collide_vx, if_neg h1, if_neg h1, if_neg h2, if_neg h2]
    exact ⟨rfl, rfl⟩
  · intro h1
    rw [collide_y, collide_vy, if_pos h1, if_pos h1]
    exact ⟨rfl, rfl⟩
  · intro h1 h2
    rw [collide_y, collide_vy, if_neg h1, if_neg h1, if_pos h2, if_pos h2]
    exact ⟨rfl, rfl⟩
  · intro h1 h2
    rw [collide_y, collide_vy, if_neg h1, if_neg h1, if_neg h2, if_neg h2]
    exact ⟨rfl, rfl⟩

theorem C3_wall_collision_contract_witness :
    (collideWallsAndTrackLoss 300 200 exC3).x = 300 - exC3.r ∧
    (collideWallsAndTrackLoss 300 200 exC3).vx = -|exC3.vx| * exC3.restitution :=
  (C3_wall_collision_contract 300 200 exC3 (by with_unfolding_all decide)
      (by with_unfolding_all decide)).2.1
    (by with_unfolding_all decide) (by with_unfolding_all decide)

/-- C9: a pointer-down that hit-tests inside the ball switches to
`dragBall` and zeroes the velocity from any mode (including `moving` and
`hitting`), leaving position, energy ledger and samples untouched. -/
theorem C9_grab_anytime (px py : ℚ) (s : PoolState) (hhit : ballHitTest px py s) :
    onStart px py s = { s with vx := 0, vy := 0, mode := Mode.dragBall, hitFrame := 0 } ∧
    (onStart px py s).mode = Mode.dragBall ∧
    (onStart px py s).vx = 0 ∧ (onStart px py s).vy = 0 ∧
    (onStart px py s).x = s.x ∧ (onStart px py s).y = s.y ∧
    (onStart px py s).E0 = s.E0 ∧ (onStart px py s).Etrans = s.Etrans ∧
    (onStart px py s).Wfric = s.Wfric ∧ (onStart px py s).Winel = s.Winel ∧
    (onStart px py s).samples = s.samples ∧ (onStart px py s).t = s.t := by
  have heq : onStart px py s
      = { s with vx := 0, vy := 0, mode := Mode.dragBall, hitFrame := 0 } := by
    rw [onStart, if_pos hhit]
  rw [heq]
  exact ⟨rfl, rfl, rfl, rfl, rfl, rfl, rfl, rfl, rfl, rfl, rfl, rfl⟩

theorem C9_grab_anytime_witness :
    onStart 150 100 exGrab
      = { exGrab with vx := 0, vy := 0, mode := Mode.dragBall, hitFrame := 0 } ∧
    exGrab.mode = Mode.moving :=
  ⟨(C9_grab_anytime 150 100 exGrab (by with_unfolding_all decide)).1,
    by with_unfolding_all decide⟩

/-- C8: the canvas layout computes the CSS width as the parent width
clamped to `[lo, hi]`, falling back to the maximum when the container is
missing or reports width 0, and derives the height as
`round(width / aspect)`; whenever `lo ≤ hi` the resulting width lies in
`[lo, hi]`. -/
theorem C8_autosize_canvas (hostW : Option ℚ) (lo hi aspect : ℚ) (hlh : lo ≤ hi) :
    lo ≤ autosizeWidth hostW lo hi ∧
    autosizeWidth hostW lo hi ≤ hi ∧
    autosizeWidth none lo hi = hi ∧
    autosizeWidth (some 0) lo hi = hi ∧
    autosizeHeight hostW lo hi aspect = jsRound (autosizeWidth hostW lo hi / aspect) := by
  refine ⟨le_max_left _ _, ?_, ?_, ?_, rfl⟩
  · exact max_le hlh (min_le_left _ _)
  · show max lo (min hi hi) = hi
    rw [min_self]
    exact max_eq_right hlh
  · show max lo (min hi hi) = hi
    rw [min_self]
    exact max_eq_right hlh

theorem C8_autosize_canvas_witness :
    (320 : ℚ) ≤ autosizeWidth (some 500) 320 720 ∧ autosizeWidth (some 500) 320 720 ≤ 720 :=
  ⟨(C8_autosize_canvas (some 500) 320 720 (12 / 7) (by with_unfolding_all decide)).1,
   (C8_autosize_canvas (some 500) 320 720 (12 / 7) (by with_unfolding_all decide)).2.1⟩

/-- C4: committing a shot is a pure, deterministic function of the aim
vector: the launch speed is the unique nonnegative number with
`speed² = maxSpeed² · clamp(L/maxPull, 0, 1)`, the velocity is that speed
times the unit aim vector (uniquely determined once the aim vector is
nonzero), the ledger starts at `E0 = ½·|v|²`, and in particular the pull
lengths `maxPull`, `0`, and anything beyond `maxPull` map to speeds `8`,
`0` and `8`. -/
theorem C4_launch_mapping :
    (∀ L s1 s2, IsPullToSpeed L s1 → IsPullToSpeed L s2 → s1 = s2) ∧
    (∀ ax ay v1x v1y v2x v2y, IsLaunchVelocity ax ay v1x v1y →
      IsLaunchVelocity ax ay v2x v2y → v1x = v2x ∧ v1y = v2y) ∧
    IsPullToSpeed maxPull maxSpeedPxPerFrame ∧
    IsPullToSpeed 0 0 ∧
    (∀ L, maxPull < L → IsPullToSpeed L maxSpeedPxPerFrame) ∧
    (∀ (cap : ℕ) (vx vy : ℚ) (s : PoolState),
      (launchShot cap vx vy s).E0 = (vx * vx + vy * vy) / 2) := by
  have huniq : ∀ L s1 s2, IsPullToSpeed L s1 → IsPullToSpeed L s2 → s1 = s2 := by
    intro L s1 s2 ⟨h1, e1⟩ ⟨h2, e2⟩
    exact (mul_self_inj_of_nonneg h1 h2).1 (by rw [e1, e2])
  refine ⟨huniq, ?_, ?_, ?_, ?_, fun cap vx vy s => rfl⟩
  · intro ax ay v1x v1y v2x v2y ⟨L1, spd1, hL1, hsq1, hps1, hx1, hy1⟩
      ⟨L2, spd2, hL2, hsq2, hps2, hx2, hy2⟩
    have hLeq : L1 = L2 :=
      (mul_self_inj_of_nonneg (le_of_lt hL1) (le_of_lt hL2)).1 (by rw [hsq1, hsq2])
    subst hLeq
    have hspd : spd1 = spd2 := huniq L1 spd1 spd2 hps1 hps2
    subst hspd
    constructor
    · have : v1x * L1 = v2x * L1 := by rw [hx1, hx2]
      exact mul_right_cancel₀ (ne_of_gt hL1) this
    · have : v1y * L1 = v2y * L1 := by rw [hy1, hy2]
      exact mul_right_cancel₀ (ne_of_gt hL1) this
  · constructor
    · norm_num [maxSpeedPxPerFrame]
    · show (8:ℚ) * 8 = 8 * 8 * pullToSpeedArg 220
      have : pullToSpeedArg 220 = 1 := by
        norm_num [pullToSpeedArg, clamp, maxPull]
      rw [this, mul_one]
  · constructor
    · exact le_refl 0
    · show (0:ℚ) * 0 = 8 * 8 * pullToSpeedArg 0
      have : pullToSpeedArg 0 = 0 := by
        norm_num [pullToSpeedArg, clamp, maxPull]
      rw [this, mul_zero]
      norm_num
  · intro L hL
    constructor
    · norm_num [maxSpeedPxPerFrame]
    · show (8:ℚ) * 8 = 8 * 8 * pullToSpeedArg L
      have harg : pullToSpeedArg L = 1 := by
        have h220 : (0:ℚ) < 220 := by norm_num
        have : (1:ℚ) ≤ L / 220 := (one_le_div h220).2 (le_of_lt (by
          show (220:ℚ) < L
          exact hL))
        show clamp (L / maxPull) 0 1 = 1
        rw [clamp, maxPull]
        rw [min_eq_left this, max_eq_right (by norm_num : (0:ℚ) ≤ 1)]
      rw [harg, mul_one]

theorem C4_launch_mapping_witness : IsPullToSpeed maxPull maxSpeedPxPerFrame :=
  C4_launch_mapping.2.2.1


/-! ### The perfectly elastic, frictionless run -/

theorem loopFrame_elastic (w h : ℚ) (cap : ℕ) (dt : ℚ) (E0 : ℚ) (s : PoolState)
    (hI : ElasticInv E0 s) : ElasticInv E0 (loopFrame w h cap dt s) := by
  obtain ⟨hf, he, hm, hE0, hWf, hWi, hEt, hhalf, hsp, hsmp⟩ := hI
  rw [loopFrame_of_moving w h cap dt s hm]
  have hs0e : ({ s with t := s.t + dt, x := s.x + s.vx, y := s.y + s.vy } :
      PoolState).restitution = 1 := he
  have hs0f : ({ s with t := s.t + dt, x := s.x + s.vx, y := s.y + s.vy } :
      PoolState).frictionFactor = 1 := hf
  have hcvx := collide_vx_sq_of_elastic w h
    { s with t := s.t + dt, x := s.x + s.vx, y := s.y + s.vy }
    (le_of_eq hs0e.symm) (le_of_eq hs0e)
  have hcvy := collide_vy_sq_of_elastic w h
    { s with t := s.t + dt, x := s.x + s.vx, y := s.y + s.vy }
    (le_of_eq hs0e.symm) (le_of_eq hs0e)
  have hspC : speedSq (collideWallsAndTrackLoss w h
      { s with t := s.t + dt, x := s.x + s.vx, y := s.y + s.vy }) = speedSq s := by
    show _ * _ + _ * _ = _
    rw [hcvx, hcvy]
    rfl
  have hCWi : (collideWallsAndTrackLoss w h
      { s with t := s.t + dt, x := s.x + s.vx, y := s.y + s.vy }).Winel = 0 := by
    rw [collide_Winel, if_neg]
    · exact hWi
    · intro hcond
      have := hcond.2
      rw [show ({ s with t := s.t + dt, x := s.x + s.vx, y := s.y + s.vy } :
        PoolState).restitution = s.restitution from rfl, he] at this
      exact lt_irrefl 1 this
  have hCWf : (collideWallsAndTrackLoss w h
      { s with t := s.t + dt, x := s.x + s.vx, y := s.y + s.vy }).Wfric = 0 := by
    rw [collide_Wfric]
    exact hWf
  have hfr : applyFrictionAndTrackLoss (collideWallsAndTrackLoss w h
        { s with t := s.t + dt, x := s.x + s.vx, y := s.y + s.vy })
      = collideWallsAndTrackLoss w h
        { s with t := s.t + dt, x := s.x + s.vx, y := s.y + s.vy } := by
    apply friction_of_ge_one
    rw [collide_frictionFactor, hs0f]
  have hD : movingFrame w h cap dt s = sampleEnergy cap (energyCorrection
      (if (applyFrictionAndTrackLoss (collideWallsAndTrackLoss w h
            { s with t := s.t + dt, x := s.x + s.vx, y := s.y + s.vy })).vx *
          (applyFrictionAndTrackLoss (collideWallsAndTrackLoss w h
            { s with t := s.t + dt, x := s.x + s.vx, y := s.y + s.vy })).vx +
          (applyFrictionAndTrackLoss (collideWallsAndTrackLoss w h
            { s with t := s.t + dt, x := s.x + s.vx, y := s.y + s.vy })).vy *
          (applyFrictionAndTrackLoss (collideWallsAndTrackLoss w h
            { s with t := s.t + dt, x := s.x + s.vx, y := s.y + s.vy })).vy < 1 / 10000 then
        { applyFrictionAndTrackLoss (collideWallsAndTrackLoss w h
            { s with t := s.t + dt, x := s.x + s.vx, y := s.y + s.vy }) with
          vx := 0, vy := 0, mode := Mode.idle }
      else applyFrictionAndTrackLoss (collideWallsAndTrackLoss w h
            { s with t := s.t + dt, x := s.x + s.vx, y := s.y + s.vy }))) := rfl
  rw [hfr] at hD
  have hstopfalse : ¬((collideWallsAndTrackLoss w h
        { s with t := s.t + dt, x := s.x + s.vx, y := s.y + s.vy }).vx *
      (collideWallsAndTrackLoss w h
        { s with t := s.t + dt, x := s.x + s.vx, y := s.y + s.vy }).vx +
      (collideWallsAndTrackLoss w h
        { s with t := s.t + dt, x := s.x + s.vx, y := s.y + s.vy }).vy *
      (collideWallsAndTrackLoss w h
        { s with t := s.t + dt, x := s.x + s.vx, y := s.y + s.vy }).vy < 1 / 10000) := by
    show ¬(speedSq _ < 1 / 10000)
    rw [hspC]
    exact not_lt.2 hsp
  rw [if_neg hstopfalse] at hD
  have hsumC : speedSq (collideWallsAndTrackLoss w h
        { s with t := s.t + dt, x := s.x + s.vx, y := s.y + s.vy }) / 2 +
      (collideWallsAndTrackLoss w h
        { s with t := s.t + dt, x := s.x + s.vx, y := s.y + s.vy }).Wfric +
      (collideWallsAndTrackLoss w h
        { s with t := s.t + dt, x := s.x + s.vx, y := s.y + s.vy }).Winel =
      (collideWallsAndTrackLoss w h
        { s with t := s.t + dt, x := s.x + s.vx, y := s.y + s.vy }).E0 := by
    rw [hspC, hCWi, hCWf, collide_E0]
    show speedSq s / 2 + 0 + 0 = s.E0
    rw [hE0]
    linarith [hhalf]
  rw [correction_exact _ hsumC] at hD
  rw [hD]
  have hCvxeq : (sampleEnergy cap
      ({ collideWallsAndTrackLoss w h
          { s with t := s.t + dt, x := s.x + s.vx, y := s.y + s.vy } with
        Etrans := ((collideWallsAndTrackLoss w h
          { s with t := s.t + dt, x := s.x + s.vx, y := s.y + s.vy }).vx *
          (collideWallsAndTrackLoss w h
          { s with t := s.t + dt, x := s.x + s.vx, y := s.y + s.vy }).vx +
          (collideWallsAndTrackLoss w h
          { s with t := s.t + dt, x := s.x + s.vx, y := s.y + s.vy }).vy *
          (collideWallsAndTrackLoss w h
          { s with t := s.t + dt, x := s.x + s.vx, y := s.y + s.vy }).vy) / 2 } :
        PoolState)) = sampleEnergy cap
      ({ collideWallsAndTrackLoss w h
          { s with t := s.t + dt, x := s.x + s.vx, y := s.y + s.vy } with
        Etrans := speedSq s / 2 }) := by
    rw [show ((collideWallsAndTrackLoss w h
          { s with t := s.t + dt, x := s.x + s.vx, y := s.y + s.vy }).vx *
          (collideWallsAndTrackLoss w h
          { s with t := s.t + dt, x := s.x + s.vx, y := s.y + s.vy }).vx +
          (collideWallsAndTrackLoss w h
          { s with t := s.t + dt, x := s.x + s.vx, y := s.y + s.vy }).vy *
          (collideWallsAndTrackLoss w h
          { s with t := s.t + dt, x := s.x + s.vx, y := s.y + s.vy }).vy) = speedSq s
      from hspC]
  rw [hCvxeq]
  refine ⟨?_, ?_, ?_, ?_, ?_, ?_, ?_, ?_, ?_, ?_⟩
  · rw [sample_frictionFactor]
    show (collideWallsAndTrackLoss w h _).frictionFactor = 1
    rw [collide_frictionFactor, hs0f]
  · rw [sample_restitution]
    show (collideWallsAndTrackLoss w h _).restitution = 1
    rw [collide_restitution, hs0e]
  · rw [sample_mode]
    show (collideWallsAndTrackLoss w h _).mode = Mode.moving
    rw [collide_mode]
    exact hm
  · rw [sample_E0]
    show (collideWallsAndTrackLoss w h _).E0 = E0
    rw [collide_E0]
    exact hE0
  · rw [sample_Wfric]
    show (collideWallsAndTrackLoss w h _).Wfric = 0
    exact hCWf
  · rw [sample_Winel]
    show (collideWallsAndTrackLoss w h _).Winel = 0
    exact hCWi
  · rw [sample_Etrans]
    show speedSq s / 2 = E0
    exact hhalf
  · show speedSq (collideWallsAndTrackLoss w h _) / 2 = E0
    rw [hspC]
    exact hhalf
  · show 1 / 10000 ≤ speedSq (collideWallsAndTrackLoss w h _)
    rw [hspC]
    exact hsp
  · intro smp hmem
    rcases sampleEnergy_mem cap _ smp hmem with hold | hnew
    · apply hsmp
      have hss : ({ collideWallsAndTrackLoss w h
          { s with t := s.t + dt, x := s.x + s.vx, y := s.y + s.vy } with
          Etrans := speedSq s / 2 } : PoolState).samples = s.samples := by
        show (collideWallsAndTrackLoss w h
          { s with t := s.t + dt, x := s.x + s.vx, y := s.y + s.vy }).samples = s.samples
        rw [collide_samples]
      rw [hss] at hold
      exact hold
    · rw [hnew]
      refine ⟨?_, ?_, ?_⟩
      · show (collideWallsAndTrackLoss w h _).Wfric = 0
        exact hCWf
      · show (collideWallsAndTrackLoss w h _).Winel = 0
        exact hCWi
      · show speedSq s / 2 = E0
        exact hhalf


theorem runTrace_elastic (w h : ℚ) (cap : ℕ) (E0 : ℚ) :
    ∀ (dts : List ℚ) (s : PoolState), ElasticInv E0 s →
      ElasticInv E0 (runTrace w h cap s dts) := by
  intro dts
  induction dts with
  | nil => intro s hI; exact hI
  | cons dt rest ih =>
    intro s hI
    rw [runTrace_cons]
    exact ih _ (loopFrame_elastic w h cap dt E0 s hI)

theorem launchShot_elastic (cap : ℕ) (vx vy : ℚ) (s : PoolState)
    (hf : s.frictionFactor = 1) (he : s.restitution = 1)
    (hsp : 1 / 10000 ≤ vx * vx + vy * vy) :
    ElasticInv ((vx * vx + vy * vy) / 2) (launchShot cap vx vy s) := by
  refine ⟨hf, he, rfl, rfl, rfl, rfl, rfl, rfl, hsp, ?_⟩
  intro smp hmem
  rcases sampleEnergy_mem cap _ smp hmem with hold | hnew
  · exact absurd hold (List.not_mem_nil smp)
  · rw [hnew]
    exact ⟨rfl, rfl, rfl⟩

/-- C5: along a launched trace, `Wfric` and `Winel` never decrease from one
frame to the next; and with `frictionFactor = 1` and `restitution = 1` both
stay identically zero at every sample while `Etrans` stays pinned at `E0`
(for any real shot, i.e. one whose launch speed is at least the rest
threshold). -/
theorem C5_monotonic_dissipation (w h : ℚ) (cap : ℕ) (vx vy : ℚ) (s0 : PoolState)
    (dts : List ℚ) (dt : ℚ)
    (he0 : 0 ≤ s0.restitution) (he1 : s0.restitution ≤ 1) (hf0 : 0 ≤ s0.frictionFactor) :
    ((runTrace w h cap (launchShot cap vx vy s0) dts).Wfric ≤
        (loopFrame w h cap dt (runTrace w h cap (launchShot cap vx vy s0) dts)).Wfric ∧
      (runTrace w h cap (launchShot cap vx vy s0) dts).Winel ≤
        (loopFrame w h cap dt (runTrace w h cap (launchShot cap vx vy s0) dts)).Winel) ∧
    (s0.frictionFactor = 1 → s0.restitution = 1 → 1 / 10000 ≤ vx * vx + vy * vy →
      (runTrace w h cap (launchShot cap vx vy s0) dts).Wfric = 0 ∧
      (runTrace w h cap (launchShot cap vx vy s0) dts).Winel = 0 ∧
      (runTrace w h cap (launchShot cap vx vy s0) dts).Etrans =
        (runTrace w h cap (launchShot cap vx vy s0) dts).E0 ∧
      ∀ smp ∈ (runTrace w h cap (launchShot cap vx vy s0) dts).samples,
        smp.Wfric = 0 ∧ smp.Winel = 0 ∧
          smp.Etrans = (runTrace w h cap (launchShot cap vx vy s0) dts).E0) := by
  constructor
  · have hI := runTrace_shotInv w h cap ((vx * vx + vy * vy) / 2) dts _
      (launchShot_shotInv cap vx vy s0 he0 he1 hf0)
    obtain ⟨hE0, hp, _, hpre⟩ := hI
    by_cases hm : (runTrace w h cap (launchShot cap vx vy s0) dts).mode = Mode.moving
    · rw [loopFrame_of_moving _ _ _ _ _ hm]
      obtain ⟨_, _, _, _, hWf, hWi, _, _, _, _, _, _⟩ :=
        movingFrame_facts w h cap dt (runTrace w h cap (launchShot cap vx vy s0) dts) _ rfl
          hp (hpre hm)
      exact ⟨hWf, hWi⟩
    · rw [loopFrame_of_ne _ _ _ _ _ hm]
      exact ⟨le_refl _, le_refl _⟩
  · intro hf1 he1' hsp
    have hE := runTrace_elastic w h cap ((vx * vx + vy * vy) / 2) dts _
      (launchShot_elastic cap vx vy s0 hf1 he1' hsp)
    obtain ⟨_, _, _, hE0, hWf, hWi, hEt, _, _, hsmp⟩ := hE
    refine ⟨hWf, hWi, by rw [hEt, hE0], ?_⟩
    intro smp hmem
    obtain ⟨h1, h2, h3⟩ := hsmp smp hmem
    exact ⟨h1, h2, by rw [h3, hE0]⟩

theorem C5_monotonic_dissipation_witness :
    (runTrace 300 200 2400 (launchShot 2400 8 0 exElastic) [1/60, 1/60]).Wfric = 0 ∧
    (runTrace 300 200 2400 (launchShot 2400 8 0 exElastic) [1/60, 1/60]).Winel = 0 ∧
    (runTrace 300 200 2400 (launchShot 2400 8 0 exElastic) [1/60, 1/60]).Etrans =
      (runTrace 300 200 2400 (launchShot 2400 8 0 exElastic) [1/60, 1/60]).E0 := by
  have hB := (C5_monotonic_dissipation 300 200 2400 8 0 exElastic [1/60, 1/60] (1/60)
    (by with_unfolding_all decide) (by with_unfolding_all decide)
    (by with_unfolding_all decide)).2
    (by with_unfolding_all decide) (by with_unfolding_all decide)
    (by with_unfolding_all decide)
  exact ⟨hB.1, hB.2.1, hB.2.2.1⟩


/-! ### Termination of a shot under friction -/

theorem runTrace_mode_cases (w h : ℚ) (cap : ℕ) :
    ∀ (dts : List ℚ) (s : PoolState),
      s.mode = Mode.moving ∨ s.mode = Mode.idle →
      (runTrace w h cap s dts).mode = Mode.moving ∨
        (runTrace w h cap s dts).mode = Mode.idle := by
  intro dts
  induction dts with
  | nil => intro s hs; exact hs
  | cons dt rest ih =>
    intro s hs
    rw [runTrace_cons]
    apply ih
    rcases hs with hmov | hidle
    · rw [loopFrame_of_moving w h cap dt s hmov]
      rcases movingFrame_mode_cases w h cap dt s with heq | hidle'
      · rw [heq, hmov]
        exact Or.inl rfl
      · exact Or.inr hidle'
    · rw [loopFrame_of_ne w h cap dt s (by rw [hidle]; intro hc; exact Mode.noConfusion hc)]
      exact Or.inr hidle

theorem runTrace_decay (w h : ℚ) (cap : ℕ) (E0 : ℚ) :
    ∀ (dts : List ℚ) (s : PoolState), ShotInv E0 s → s.frictionFactor < 1 →
      (runTrace w h cap s dts).mode = Mode.moving →
      speedSq (runTrace w h cap s dts) ≤
        (s.frictionFactor * s.frictionFactor) ^ dts.length * speedSq s := by
  intro dts
  induction dts with
  | nil =>
    intro s _ _ _
    rw [List.length_nil, pow_zero, one_mul]
    exact le_refl _
  | cons dt rest ih =>
    intro s hI hf hm
    by_cases hsm : s.mode = Mode.moving
    · have hIM : ShotInv E0 (loopFrame w h cap dt s) := loopFrame_shotInv w h cap dt E0 s hI
      rw [loopFrame_of_moving w h cap dt s hsm] at hIM
      obtain ⟨hE0, hp, _, hpre⟩ := hI
      obtain ⟨_, hMF, _, _, _, _, _, _, _, _, hdec, _⟩ :=
        movingFrame_facts w h cap dt s _ rfl hp (hpre hsm)
      have hMf : (movingFrame w h cap dt s).frictionFactor < 1 := by
        rw [hMF]
        exact hf
      rw [runTrace_cons, loopFrame_of_moving w h cap dt s hsm] at hm ⊢
      have hih := ih (movingFrame w h cap dt s) hIM hMf hm
      rw [hMF] at hih
      have hnn : (0:ℚ) ≤ (s.frictionFactor * s.frictionFactor) ^ rest.length :=
        pow_nonneg (mul_self_nonneg _) _
      calc speedSq (runTrace w h cap (movingFrame w h cap dt s) rest)
          ≤ (s.frictionFactor * s.frictionFactor) ^ rest.length *
              speedSq (movingFrame w h cap dt s) := hih
        _ ≤ (s.frictionFactor * s.frictionFactor) ^ rest.length *
              (s.frictionFactor * s.frictionFactor * speedSq s) :=
            mul_le_mul_of_nonneg_left (hdec hf) hnn
        _ = (s.frictionFactor * s.frictionFactor) ^ (dt :: rest).length * speedSq s := by
            rw [List.length_cons, pow_succ]
            ring
    · rw [runTrace_cons, loopFrame_of_ne w h cap dt s hsm, runTrace_frozen w h cap rest s hsm]
        at hm
      exact absurd hm hsm

theorem runTrace_min_speed (w h : ℚ) (cap : ℕ) (E0 : ℚ) :
    ∀ (dts : List ℚ) (s : PoolState), ShotInv E0 s → dts ≠ [] →
      (runTrace w h cap s dts).mode = Mode.moving →
      1 / 10000 ≤ speedSq (runTrace w h cap s dts) := by
  intro dts
  induction dts with
  | nil => intro s _ hne _; exact absurd rfl hne
  | cons dt rest ih =>
    intro s hI _ hm
    by_cases hsm : s.mode = Mode.moving
    · have hIM : ShotInv E0 (loopFrame w h cap dt s) := loopFrame_shotInv w h cap dt E0 s hI
      rcases rest with _ | ⟨dt2, rest2⟩
      · rw [runTrace_cons, runTrace_nil] at hm ⊢
        rw [loopFrame_of_moving w h cap dt s hsm] at hm ⊢
        obtain ⟨hE0, hp, _, hpre⟩ := hI
        obtain ⟨_, _, _, _, _, _, _, _, hmov, _, _, _⟩ :=
          movingFrame_facts w h cap dt s _ rfl hp (hpre hsm)
        exact (hmov hm).2.2.1
      · rw [runTrace_cons] at hm ⊢
        exact ih _ hIM (by intro hc; exact List.noConfusion hc) hm
    · rw [runTrace_cons, loopFrame_of_ne w h cap dt s hsm,
        runTrace_frozen w h cap _ s hsm] at hm
      exact absurd hm hsm

/-- C6: with any friction factor below 1 and any launch speed, the shot
reaches `idle` within a bounded number of frames (the speed decays
geometrically); and on the frame where the post-friction speed drops below
`0.01` the loop zeroes both velocity components and sets the mode to
`idle`. -/
theorem C6_termination (w h : ℚ) (cap : ℕ) (vx vy : ℚ) (s0 : PoolState)
    (he0 : 0 ≤ s0.restitution) (he1 : s0.restitution ≤ 1)
    (hf0 : 0 ≤ s0.frictionFactor) (hf1 : s0.frictionFactor < 1)
    (hv : vx * vx + vy * vy ≤ maxSpeedPxPerFrame * maxSpeedPxPerFrame) :
    (∃ N : ℕ, ∀ dts : List ℚ, N ≤ dts.length →
      (runTrace w h cap (launchShot cap vx vy s0) dts).mode = Mode.idle) ∧
    (∀ (dt : ℚ) (s : PoolState),
      (applyFrictionAndTrackLoss (collideWallsAndTrackLoss w h
          { s with t := s.t + dt, x := s.x + s.vx, y := s.y + s.vy })).vx *
        (applyFrictionAndTrackLoss (collideWallsAndTrackLoss w h
          { s with t := s.t + dt, x := s.x + s.vx, y := s.y + s.vy })).vx +
        (applyFrictionAndTrackLoss (collideWallsAndTrackLoss w h
          { s with t := s.t + dt, x := s.x + s.vx, y := s.y + s.vy })).vy *
        (applyFrictionAndTrackLoss (collideWallsAndTrackLoss w h
          { s with t := s.t + dt, x := s.x + s.vx, y := s.y + s.vy })).vy < 1 / 10000 →
      (movingFrame w h cap dt s).vx = 0 ∧ (movingFrame w h cap dt s).vy = 0 ∧
        (movingFrame w h cap dt s).mode = Mode.idle) := by
  constructor
  · have hff : s0.frictionFactor * s0.frictionFactor < 1 := by nlinarith
    have hffnn : (0:ℚ) ≤ s0.frictionFactor * s0.frictionFactor := mul_self_nonneg _
    obtain ⟨N0, hN0⟩ := exists_pow_lt_of_lt_one
      (show (0:ℚ) < 1 / 640000 by norm_num) hff
    refine ⟨N0 + 1, ?_⟩
    intro dts hlen
    have hI : ShotInv ((vx * vx + vy * vy) / 2) (launchShot cap vx vy s0) :=
      launchShot_shotInv cap vx vy s0 he0 he1 hf0
    rcases runTrace_mode_cases w h cap dts (launchShot cap vx vy s0)
        (Or.inl (launchShot_mode cap vx vy s0)) with hmov | hidle
    · exfalso
      have hfL : (launchShot cap vx vy s0).frictionFactor < 1 := hf1
      have hdec := runTrace_decay w h cap ((vx * vx + vy * vy) / 2) dts _ hI hfL hmov
      have hmin := runTrace_min_speed w h cap ((vx * vx + vy * vy) / 2) dts _ hI
        (by intro hc; rw [hc] at hlen; simp at hlen) hmov
      have hspL : speedSq (launchShot cap vx vy s0) = vx * vx + vy * vy := rfl
      have hv' : vx * vx + vy * vy ≤ 64 := by
        rw [maxSpeedPxPerFrame] at hv
        norm_num at hv
        linarith
      have hle : ((launchShot cap vx vy s0).frictionFactor *
            (launchShot cap vx vy s0).frictionFactor) ^ dts.length ≤
          (s0.frictionFactor * s0.frictionFactor) ^ N0 := by
        have : (launchShot cap vx vy s0).frictionFactor = s0.frictionFactor := rfl
        rw [this]
        exact pow_le_pow_of_le_one hffnn (le_of_lt hff) (by omega)
      have hsp64 : speedSq (runTrace w h cap (launchShot cap vx vy s0) dts) ≤
          (s0.frictionFactor * s0.frictionFactor) ^ N0 * 64 := by
        calc speedSq (runTrace w h cap (launchShot cap vx vy s0) dts)
            ≤ ((launchShot cap vx vy s0).frictionFactor *
                (launchShot cap vx vy s0).frictionFactor) ^ dts.length *
                speedSq (launchShot cap vx vy s0) := hdec
          _ ≤ (s0.frictionFactor * s0.frictionFactor) ^ N0 * 64 := by
              rw [hspL]
              apply mul_le_mul hle hv' (add_nonneg (mul_self_nonneg vx) (mul_self_nonneg vy)) (pow_nonneg hffnn N0)
      have hlt : (s0.frictionFactor * s0.frictionFactor) ^ N0 * 64 < 1 / 10000 := by
        have := mul_lt_mul_of_pos_right hN0 (show (0:ℚ) < 64 by norm_num)
        calc (s0.frictionFactor * s0.frictionFactor) ^ N0 * 64
            < 1 / 640000 * 64 := this
          _ = 1 / 10000 := by norm_num
      linarith
    · exact hidle
  · intro dt s hstop
    have hM : movingFrame w h cap dt s = sampleEnergy cap (energyCorrection
        ({ applyFrictionAndTrackLoss (collideWallsAndTrackLoss w h
              { s with t := s.t + dt, x := s.x + s.vx, y := s.y + s.vy }) with
            vx := 0, vy := 0, mode := Mode.idle })) := by
      show sampleEnergy cap (energyCorrection _) = _
      rw [if_pos hstop]
    rw [hM]
    refine ⟨?_, ?_, ?_⟩
    · rw [sample_vx, correction_vx]
    · rw [sample_vy, correction_vy]
    · rw [sample_mode, correction_mode]

theorem C6_termination_witness :
    ∃ N : ℕ, ∀ dts : List ℚ, N ≤ dts.length →
      (runTrace 300 200 2400 (launchShot 2400 8 0 exBase) dts).mode = Mode.idle :=
  (C6_termination 300 200 2400 8 0 exBase (by with_unfolding_all decide)
    (by with_unfolding_all decide) (by with_unfolding_all decide)
    (by with_unfolding_all decide) (by with_unfolding_all decide)).1


theorem sampleEnergy_getLast (cap : ℕ) (hcap : 1 ≤ cap) (u : PoolState) :
    (sampleEnergy cap u).samples.getLast?
      = some (Sample.mk u.t u.Etrans u.Wfric u.Winel) := by
  rw [sample_samples]
  split_ifs with hc
  · have hlen : 1 ≤ u.samples.length := by
      rw [List.length_append, List.length_singleton] at hc
      omega
    rcases hu : u.samples with _ | ⟨b, l'⟩
    · rw [hu] at hlen
      simp at hlen
    · rw [List.cons_append, List.tail_cons]
      exact List.getLast?_concat _
  · exact List.getLast?_concat _

/-- C10: on the frame where the ball comes to rest (post-friction speed
below `0.01`), the velocity is zeroed before the correction runs, so the
recorded sample has `Etrans = 0` and the leftover kinetic energy — which
within the widget's parameter ranges always exceeds the `1e-6` threshold —
is folded into `Wfric`, making `Wfric + Winel = E0` exact and `Wfric`
strictly positive even when `frictionFactor = 1`. -/
theorem C10_rest_frame_residual_fold (w h : ℚ) (cap : ℕ) (dt : ℚ) (s : PoolState)
    (hcap : 1 ≤ cap)
    (hsum : speedSq s / 2 + s.Wfric + s.Winel = s.E0)
    (hW : 0 ≤ s.Wfric) (_hWi : 0 ≤ s.Winel)
    (hf9 : 9 / 10 ≤ s.frictionFactor) (hf1 : s.frictionFactor ≤ 1)
    (he6 : 3 / 5 ≤ s.restitution) (he1 : s.restitution ≤ 1)
    (hsp : 1 / 10000 ≤ speedSq s)
    (hstop : (applyFrictionAndTrackLoss (collideWallsAndTrackLoss w h
        { s with t := s.t + dt, x := s.x + s.vx, y := s.y + s.vy })).vx *
      (applyFrictionAndTrackLoss (collideWallsAndTrackLoss w h
        { s with t := s.t + dt, x := s.x + s.vx, y := s.y + s.vy })).vx +
      (applyFrictionAndTrackLoss (collideWallsAndTrackLoss w h
        { s with t := s.t + dt, x := s.x + s.vx, y := s.y + s.vy })).vy *
      (applyFrictionAndTrackLoss (collideWallsAndTrackLoss w h
        { s with t := s.t + dt, x := s.x + s.vx, y := s.y + s.vy })).vy < 1 / 10000) :
    (movingFrame w h cap dt s).mode = Mode.idle ∧
    (movingFrame w h cap dt s).vx = 0 ∧
    (movingFrame w h cap dt s).vy = 0 ∧
    (movingFrame w h cap dt s).Etrans = 0 ∧
    (movingFrame w h cap dt s).Wfric + (movingFrame w h cap dt s).Winel = s.E0 ∧
    s.Wfric < (movingFrame w h cap dt s).Wfric ∧
    (movingFrame w h cap dt s).samples.getLast?
      = some (Sample.mk (movingFrame w h cap dt s).t 0
          (movingFrame w h cap dt s).Wfric (movingFrame w h cap dt s).Winel) := by
  have he0 : 0 ≤ s.restitution := le_trans (by norm_num) he6
  have hf0 : 0 ≤ s.frictionFactor := le_trans (by norm_num) hf9
  have hphys := phys_facts w h { s with t := s.t + dt, x := s.x + s.vx, y := s.y + s.vy }
    he0 he1 hf0 hsum
  set D := applyFrictionAndTrackLoss (collideWallsAndTrackLoss w h
    { s with t := s.t + dt, x := s.x + s.vx, y := s.y + s.vy }) with hD
  obtain ⟨hDsum, hDWf, hDWi, hDE0, hDmode, hDt, hDS, hDF, hDR, hDr, hDdec, hDle⟩ := hphys
  -- lower bound on the speed entering the stop check
  have hCge := collide_speedSq_ge w h
    { s with t := s.t + dt, x := s.x + s.vx, y := s.y + s.vy } he0 he1
  have hCf : (collideWallsAndTrackLoss w h
      { s with t := s.t + dt, x := s.x + s.vx, y := s.y + s.vy }).frictionFactor
      = s.frictionFactor :=
    collide_frictionFactor w h _
  have hFge := friction_speedSq_ge (collideWallsAndTrackLoss w h
      { s with t := s.t + dt, x := s.x + s.vx, y := s.y + s.vy })
    (by rw [hCf]; exact hf0) (by rw [hCf]; exact hf1)
  rw [hCf] at hFge
  have hsp0 : speedSq ({ s with t := s.t + dt, x := s.x + s.vx, y := s.y + s.vy } :
      PoolState) = speedSq s := rfl
  have hCge' : s.restitution * s.restitution * speedSq s ≤
      speedSq (collideWallsAndTrackLoss w h
        { s with t := s.t + dt, x := s.x + s.vx, y := s.y + s.vy }) := by
    rw [← hsp0]
    exact hCge
  have hchain : s.frictionFactor * s.frictionFactor *
      (s.restitution * s.restitution * speedSq s) ≤ speedSq D := by
    calc s.frictionFactor * s.frictionFactor * (s.restitution * s.restitution * speedSq s)
        ≤ s.frictionFactor * s.frictionFactor * speedSq (collideWallsAndTrackLoss w h
            { s with t := s.t + dt, x := s.x + s.vx, y := s.y + s.vy }) :=
          mul_le_mul_of_nonneg_left hCge' (mul_self_nonneg _)
      _ ≤ speedSq D := hFge
  have h2 : (81 / 100 : ℚ) ≤ s.frictionFactor * s.frictionFactor := by nlinarith
  have h3 : (9 / 25 : ℚ) ≤ s.restitution * s.restitution := by nlinarith
  have h4 : (9 / 25 : ℚ) * (1 / 10000) ≤ s.restitution * s.restitution * speedSq s :=
    mul_le_mul h3 hsp (by norm_num) (le_trans (by norm_num) h3)
  have h5 : (81 / 100 : ℚ) * ((9 / 25) * (1 / 10000)) ≤
      s.frictionFactor * s.frictionFactor * (s.restitution * s.restitution * speedSq s) :=
    mul_le_mul h2 (h4) (by norm_num) (le_trans (by norm_num) h2)
  have hDlow : (729 / 25000000 : ℚ) ≤ speedSq D := by
    have : (729 / 25000000 : ℚ) = (81 / 100) * ((9 / 25) * (1 / 10000)) := by norm_num
    rw [this]
    exact le_trans h5 hchain
  -- the stop branch is taken
  have hM : movingFrame w h cap dt s = sampleEnergy cap (energyCorrection
      ({ D with vx := 0, vy := 0, mode := Mode.idle })) := by
    show sampleEnergy cap (energyCorrection _) = _
    rw [if_pos hstop]
  -- the correction folds the leftover kinetic energy into Wfric
  have hZW : 0 ≤ ({ D with vx := 0, vy := 0, mode := Mode.idle } : PoolState).Wfric :=
    le_trans hW hDWf
  have hbig : 1 / 1000000 <
      ({ D with vx := 0, vy := 0, mode := Mode.idle } : PoolState).E0 -
        (speedSq ({ D with vx := 0, vy := 0, mode := Mode.idle } : PoolState) / 2 +
          ({ D with vx := 0, vy := 0, mode := Mode.idle } : PoolState).Wfric +
          ({ D with vx := 0, vy := 0, mode := Mode.idle } : PoolState).Winel) := by
    show (1 : ℚ) / 1000000 < D.E0 - ((0 * 0 + 0 * 0) / 2 + D.Wfric + D.Winel)
    rw [hDE0]
    show (1 : ℚ) / 1000000 < s.E0 - ((0 * 0 + 0 * 0) / 2 + D.Wfric + D.Winel)
    have hKeq : s.E0 - (D.Wfric + D.Winel) = speedSq D / 2 := by linarith
    have : (0 * 0 + 0 * 0 : ℚ) / 2 = 0 := by norm_num
    rw [this]
    linarith
  have hfold := correction_fold ({ D with vx := 0, vy := 0, mode := Mode.idle }) hZW hbig
  have hfoldW : (energyCorrection ({ D with vx := 0, vy := 0, mode := Mode.idle })).Wfric
      = D.Wfric + (s.E0 - (D.Wfric + D.Winel)) := by
    rw [hfold]
    show D.Wfric + (D.E0 - ((0 * 0 + 0 * 0) / 2 + D.Wfric + D.Winel)) = _
    rw [hDE0]
    ring_nf
  have hK : (0:ℚ) < s.E0 - (D.Wfric + D.Winel) := by
    have hKeq : s.E0 - (D.Wfric + D.Winel) = speedSq D / 2 := by linarith
    rw [hKeq]
    linarith
  rw [hM]
  refine ⟨?_, ?_, ?_, ?_, ?_, ?_, ?_⟩
  · rw [sample_mode, correction_mode]
  · rw [sample_vx, correction_vx]
  · rw [sample_vy, correction_vy]
  · rw [sample_Etrans, correction_Etrans]
    norm_num
  · rw [sample_Wfric, sample_Winel, correction_Winel, hfoldW]
    show D.Wfric + (s.E0 - (D.Wfric + D.Winel)) + D.Winel = s.E0
    ring
  · rw [sample_Wfric, hfoldW]
    have : s.Wfric ≤ D.Wfric := hDWf
    linarith
  · rw [sample_t]
    rw [sampleEnergy_getLast cap hcap]
    rw [sample_Wfric, sample_Winel, correction_Etrans]
    show some (Sample.mk _ ((0 * 0 + 0 * 0 : ℚ) / 2) _ _) = _
    norm_num



theorem C10_rest_frame_residual_fold_witness :
    (movingFrame 300 200 2400 (1/60) exRest).Etrans = 0 ∧
    (movingFrame 300 200 2400 (1/60) exRest).Wfric +
        (movingFrame 300 200 2400 (1/60) exRest).Winel = exRest.E0 ∧
    exRest.frictionFactor = 1 ∧
    exRest.Wfric < (movingFrame 300 200 2400 (1/60) exRest).Wfric := by
  have hcx1 : ¬(exRestInt.x - exRestInt.r < 0) := by with_unfolding_all decide
  have hcx2 : exRestInt.x + exRestInt.r > 300 := by with_unfolding_all decide
  have hcy1 : ¬(exRestInt.y - exRestInt.r < 0) := by with_unfolding_all decide
  have hcy2 : ¬(exRestInt.y + exRestInt.r > 200) := by with_unfolding_all decide
  have hvx : (collideWallsAndTrackLoss 300 200 exRestInt).vx
      = -|exRestInt.vx| * exRestInt.restitution := by
    rw [collide_vx, if_neg hcx1, if_pos hcx2]
  have hvy : (collideWallsAndTrackLoss 300 200 exRestInt).vy = exRestInt.vy := by
    rw [collide_vy, if_neg hcy1, if_neg hcy2]
  have hfr : applyFrictionAndTrackLoss (collideWallsAndTrackLoss 300 200 exRestInt)
      = collideWallsAndTrackLoss 300 200 exRestInt := by
    apply friction_of_ge_one
    rw [collide_frictionFactor]
    with_unfolding_all decide
  have hst : (applyFrictionAndTrackLoss (collideWallsAndTrackLoss 300 200 exRestInt)).vx *
      (applyFrictionAndTrackLoss (collideWallsAndTrackLoss 300 200 exRestInt)).vx +
      (applyFrictionAndTrackLoss (collideWallsAndTrackLoss 300 200 exRestInt)).vy *
      (applyFrictionAndTrackLoss (collideWallsAndTrackLoss 300 200 exRestInt)).vy
      < 1 / 10000 := by
    rw [hfr, hvx, hvy]
    with_unfolding_all decide
  have H := C10_rest_frame_residual_fold 300 200 2400 (1/60) exRest
    (by with_unfolding_all decide) (by norm_num [speedSq, exRest, exBase])
    (by with_unfolding_all decide) (by with_unfolding_all decide)
    (by with_unfolding_all decide) (by with_unfolding_all decide)
    (by with_unfolding_all decide) (by with_unfolding_all decide)
    (by norm_num [speedSq, exRest, exBase]) hst
  exact ⟨H.2.2.2.1, H.2.2.2.2.1, by with_unfolding_all decide, H.2.2.2.2.2.1⟩

end Pool
